import Mathlib

/-!
# Sequence engine of the youBot kitchen controller

Shallow embedding of `src/controllers/youbot/youbot.c`: the scripted
action-sequence engine (`sequence_start`, `sequence_abort`, `sequence_run`
and their helpers), the body of `speak`, and the startup, main loop and
shutdown path of `main`.

* Simulated time (`double` seconds in the source) is an exact rational.
* Joint angles are the `double` expressions of the source kept symbolically
  as `pi_part * π + rat_part` with rational coefficients.
* Every call into the actuator libraries (speaker, gripper, base, arm motors)
  is appended to `Controller.calls`, in program order.
* `enum SequenceStateId` is a C integer type; the enumerators are the
  naturals `0 .. 23` and `sequence_state++` is `+ 1`.
-/

namespace YouBot

/-- Joint index, `enum Arm` of the source. -/
inductive Arm where
  | ARM1 | ARM2 | ARM3 | ARM4 | ARM5
  deriving DecidableEq, Repr

/-- A joint angle `pi_part * π + rat_part`, the value of a `double` expression
such as `-M_PI / 2 + 0.5` of the source, kept exact. -/
structure Radians where
  pi_part : ℚ
  rat_part : ℚ
  deriving DecidableEq, Repr

/-- One call from the engine into an actuator library. -/
inductive Call where
  | speak (text : String)
  | gripper_release
  | gripper_grip
  | base_strafe_left
  | base_forwards
  | base_reset
  | wb_motor_set_position (arm : Arm) (position : Radians)
  deriving DecidableEq, Repr

@[match_pattern] def SSI_PICKUP : Nat := 0
@[match_pattern] def SSI_PICKUP_1 : Nat := 1
@[match_pattern] def SSI_PICKUP_2 : Nat := 2
@[match_pattern] def SSI_PICKUP_3 : Nat := 3
@[match_pattern] def SSI_PICKUP_DONE : Nat := 4
@[match_pattern] def SSI_MOVE_LEFT : Nat := 5
@[match_pattern] def SSI_MOVE_LEFT_1 : Nat := 6
@[match_pattern] def SSI_MOVE_LEFT_DONE : Nat := 7
@[match_pattern] def SSI_FEED : Nat := 8
@[match_pattern] def SSI_FEED_1 : Nat := 9
@[match_pattern] def SSI_FEED_DONE : Nat := 10
@[match_pattern] def SSI_PUSH_FOOD : Nat := 11
@[match_pattern] def SSI_PUSH_FOOD_1 : Nat := 12
@[match_pattern] def SSI_PUSH_FOOD_DONE : Nat := 13
@[match_pattern] def SSI_DROP_FOOD : Nat := 14
@[match_pattern] def SSI_DROP_FOOD_1 : Nat := 15
@[match_pattern] def SSI_DROP_FOOD_2 : Nat := 16
@[match_pattern] def SSI_DROP_FOOD_DONE : Nat := 17
@[match_pattern] def SSI_CLEAN_KITCHEN : Nat := 18
@[match_pattern] def SSI_CLEAN_KITCHEN_1 : Nat := 19
@[match_pattern] def SSI_CLEAN_KITCHEN_2 : Nat := 20
@[match_pattern] def SSI_CLEAN_KITCHEN_3 : Nat := 21
@[match_pattern] def SSI_CLEAN_KITCHEN_DONE : Nat := 22
@[match_pattern] def SSI_DONE : Nat := 23

/-- The controller's view of the world: the simulated clock read by
`wb_robot_get_time`, the two static engine variables, and the log of actuator
calls made so far (oldest first). -/
structure Controller where
  time : ℚ
  sequence_state : Nat
  sequence_timeout_at_time : ℚ
  calls : List Call
  deriving DecidableEq, Repr

/-- The host clock, `wb_robot_get_time()`. -/
def wb_robot_get_time (c : Controller) : ℚ := c.time

/-- Append one actuator call to the log. -/
def emit (k : Call) (c : Controller) : Controller :=
  { c with calls := c.calls ++ [k] }

def speak (text : String) (c : Controller) : Controller := emit (Call.speak text) c
def gripper_release (c : Controller) : Controller := emit Call.gripper_release c
def gripper_grip (c : Controller) : Controller := emit Call.gripper_grip c
def base_strafe_left (c : Controller) : Controller := emit Call.base_strafe_left c
def base_forwards (c : Controller) : Controller := emit Call.base_forwards c
def base_reset (c : Controller) : Controller := emit Call.base_reset c
def wb_motor_set_position (arm : Arm) (position : Radians) (c : Controller) : Controller :=
  emit (Call.wb_motor_set_position arm position) c

/-- The constant `M_PI` scaled by a rational: `k * M_PI`. -/
def M_PI_times (k : ℚ) : Radians := ⟨k, 0⟩

/-- A decimal literal of the source used as an angle. -/
def lit (q : ℚ) : Radians := ⟨0, q⟩

def sequence_mark_complete (c : Controller) : Controller :=
  { c with sequence_state := SSI_DONE }

def sequence_abort (c : Controller) : Controller :=
  sequence_mark_complete c

def sequence_start (state_id : Nat) (c : Controller) : Controller :=
  { c with sequence_timeout_at_time := 0, sequence_state := state_id }

def is_sequence_timer_expired (c : Controller) : Bool :=
  let current_time := wb_robot_get_time c
  decide (current_time > c.sequence_timeout_at_time)

def is_sequence_running (c : Controller) : Bool :=
  decide (c.sequence_state ≠ SSI_DONE)

def is_sequence_complete (c : Controller) : Bool :=
  !is_sequence_running c

/-- The deadline write of `sequence_delay`; its `bool` result is never used by
the callers and is dropped. -/
def sequence_delay (timeout_duration_seconds : ℚ) (c : Controller) : Controller :=
  let current_time := wb_robot_get_time c
  { c with sequence_timeout_at_time := current_time + timeout_duration_seconds }

/-- The `switch (sequence_state)` of `sequence_run`, on the already
incremented state. Values without a `case` label fall out of the switch. -/
def sequence_switch (c : Controller) : Controller :=
  match c.sequence_state with
  | SSI_PICKUP | SSI_PICKUP_1 =>
      c |> speak "Time for your vegetables!"
        |> gripper_release
        |> wb_motor_set_position Arm.ARM1 (lit 0)
        |> wb_motor_set_position Arm.ARM2 (lit 0)
        |> wb_motor_set_position Arm.ARM3 (lit (-77 / 100))
        |> wb_motor_set_position Arm.ARM4 (lit (-121 / 100))
        |> sequence_delay (12 / 10)
  | SSI_PICKUP_2 =>
      c |> gripper_grip
        |> sequence_delay 1
  | SSI_PICKUP_3 =>
      c |> wb_motor_set_position Arm.ARM2 (M_PI_times (1 / 2))
        |> sequence_delay 1
  | SSI_PICKUP_DONE =>
      c |> sequence_mark_complete
  | SSI_MOVE_LEFT | SSI_MOVE_LEFT_1 =>
      c |> speak "Here comes the nomm nomm train!"
        |> base_strafe_left
        |> sequence_delay 3
  | SSI_MOVE_LEFT_DONE =>
      c |> base_reset
        |> sequence_mark_complete
  | SSI_FEED | SSI_FEED_1 =>
      c |> speak "Open up!"
        |> wb_motor_set_position Arm.ARM2 (M_PI_times (2 / 10))
        |> wb_motor_set_position Arm.ARM3 (M_PI_times (-1 / 2))
        |> wb_motor_set_position Arm.ARM4 (M_PI_times (-1 / 8))
        |> sequence_delay 3
  | SSI_FEED_DONE =>
      c |> sequence_mark_complete
  | SSI_PUSH_FOOD | SSI_PUSH_FOOD_1 =>
      c |> speak "FINE!... have it your way."
        |> base_forwards
        |> sequence_delay 1
  | SSI_PUSH_FOOD_DONE =>
      c |> base_reset
        |> sequence_mark_complete
  | SSI_DROP_FOOD | SSI_DROP_FOOD_1 =>
      c |> wb_motor_set_position Arm.ARM1 (lit (-9 / 100))
        |> wb_motor_set_position Arm.ARM2 (lit (-5 / 10))
        |> wb_motor_set_position Arm.ARM3 ⟨-1 / 2, 5 / 10⟩
        |> wb_motor_set_position Arm.ARM4 (lit 0)
        |> sequence_delay 3
  | SSI_DROP_FOOD_2 =>
      c |> speak "Jerk."
        |> gripper_release
        |> sequence_delay 1
  | SSI_DROP_FOOD_DONE =>
      c |> sequence_mark_complete
  | SSI_CLEAN_KITCHEN | SSI_CLEAN_KITCHEN_1 =>
      c |> wb_motor_set_position Arm.ARM2 (lit (157 / 100))
        |> wb_motor_set_position Arm.ARM3 (lit (-2635 / 1000))
        |> wb_motor_set_position Arm.ARM4 (lit (178 / 100))
        |> speak "Now get out of my kitchen you filthy animal."
        |> base_forwards
        |> sequence_delay 6
  | SSI_CLEAN_KITCHEN_2 =>
      c |> base_reset
        |> speak "BODY SLAM COMING UP."
        |> sequence_delay 2
  | SSI_CLEAN_KITCHEN_3 =>
      c |> base_forwards
        |> sequence_delay 4
  | SSI_CLEAN_KITCHEN_DONE =>
      c |> speak "OUCH. I HAVE FALLEN AND CAN'T GET UP."
        |> sequence_mark_complete
  | SSI_DONE => c
  | _ => c

def sequence_run (c : Controller) : Controller :=
  if is_sequence_timer_expired c = false then
    c
  else if is_sequence_complete c then
    c
  else
    sequence_switch { c with sequence_state := c.sequence_state + 1 }

/-- One pass of the main loop over the engine at host time `t`: the clock
reads `t` and `sequence_run` is called once. -/
def tick (t : ℚ) (c : Controller) : Controller :=
  sequence_run { c with time := t }

/-- Successive ticks at the given host times, in order. -/
def run_ticks (ts : List ℚ) (c : Controller) : Controller :=
  ts.foldl (fun acc t => tick t acc) c

/-- The calls appended to the log between two controller states. -/
def emitted (before after : Controller) : List Call :=
  after.calls.drop before.calls.length

/-- The host step `TIME_STEP`, in milliseconds. -/
def TIME_STEP : Nat := 32

/-- The host step in seconds. -/
def fixed_step : ℚ := TIME_STEP / 1000

/-- Among the regular ticks at `t0 + k * fixed_step`, `t0 + (k+1) * fixed_step`,
... (at most `fuel` of them), the index of the first one on which
`sequence_run` changes `sequence_state` when started from `c`. Tick times and
the deadline are exact rationals here; the source holds them in doubles. -/
def first_leaving_tick (t0 : ℚ) (c : Controller) : Nat → Nat → Option Nat
  | 0, _ => none
  | fuel + 1, k =>
      if (tick (t0 + k * fixed_step) c).sequence_state ≠ c.sequence_state then some k
      else first_leaving_tick t0 c fuel (k + 1)

/-- Run the regular ticks `t0 + k * fixed_step`, `t0 + (k+1) * fixed_step`, ...
(at most `fuel` of them) from `c` and return the index of the first tick after
which the engine is `SSI_DONE`. -/
def ticks_to_done (t0 : ℚ) : Nat → Nat → Controller → Option Nat
  | 0, _, _ => none
  | fuel + 1, k, c =>
      if (tick (t0 + k * fixed_step) c).sequence_state = SSI_DONE then some k
      else ticks_to_done t0 fuel (k + 1) (tick (t0 + k * fixed_step) c)

/-! ## The routine definitions of the specification -/

/-- The six named routines. -/
inductive Routine where
  | PICKUP | MOVE_LEFT | FEED | PUSH_FOOD | DROP_FOOD | CLEAN_KITCHEN
  deriving DecidableEq, Repr

/-- The entry marker of a routine, the argument given to `sequence_start`. -/
def Routine.entry : Routine → Nat
  | .PICKUP => SSI_PICKUP
  | .MOVE_LEFT => SSI_MOVE_LEFT
  | .FEED => SSI_FEED
  | .PUSH_FOOD => SSI_PUSH_FOOD
  | .DROP_FOOD => SSI_DROP_FOOD
  | .CLEAN_KITCHEN => SSI_CLEAN_KITCHEN

/-- Step actions of each routine as the specification lists them, one list per
numbered step (a terminal step without actions is the empty list). -/
def spec_steps : Routine → List (List Call)
  | .PICKUP =>
      [[Call.speak "Time for your vegetables!", Call.gripper_release,
        Call.wb_motor_set_position Arm.ARM1 ⟨0, 0⟩,
        Call.wb_motor_set_position Arm.ARM2 ⟨0, 0⟩,
        Call.wb_motor_set_position Arm.ARM3 ⟨0, -77 / 100⟩,
        Call.wb_motor_set_position Arm.ARM4 ⟨0, -121 / 100⟩],
       [Call.gripper_grip],
       [Call.wb_motor_set_position Arm.ARM2 ⟨1 / 2, 0⟩],
       []]
  | .MOVE_LEFT =>
      [[Call.speak "Here comes the nomm nomm train!", Call.base_strafe_left],
       [Call.base_reset]]
  | .FEED =>
      [[Call.speak "Open up!",
        Call.wb_motor_set_position Arm.ARM2 ⟨2 / 10, 0⟩,
        Call.wb_motor_set_position Arm.ARM3 ⟨-1 / 2, 0⟩,
        Call.wb_motor_set_position Arm.ARM4 ⟨-1 / 8, 0⟩],
       []]
  | .PUSH_FOOD =>
      [[Call.speak "FINE!... have it your way.", Call.base_forwards],
       [Call.base_reset]]
  | .DROP_FOOD =>
      [[Call.wb_motor_set_position Arm.ARM1 ⟨0, -9 / 100⟩,
        Call.wb_motor_set_position Arm.ARM2 ⟨0, -5 / 10⟩,
        Call.wb_motor_set_position Arm.ARM3 ⟨-1 / 2, 5 / 10⟩,
        Call.wb_motor_set_position Arm.ARM4 ⟨0, 0⟩],
       [Call.speak "Jerk.", Call.gripper_release],
       []]
  | .CLEAN_KITCHEN =>
      [[Call.wb_motor_set_position Arm.ARM2 ⟨0, 157 / 100⟩,
        Call.wb_motor_set_position Arm.ARM3 ⟨0, -2635 / 1000⟩,
        Call.wb_motor_set_position Arm.ARM4 ⟨0, 178 / 100⟩,
        Call.speak "Now get out of my kitchen you filthy animal.",
        Call.base_forwards],
       [Call.base_reset, Call.speak "BODY SLAM COMING UP."],
       [Call.base_forwards],
       [Call.speak "OUCH. I HAVE FALLEN AND CAN'T GET UP."]]

/-- Dwell table of the specification by step index; an entry marker stands
for the first step of its routine. Terminal markers and `SSI_DONE` have no
dwell. -/
def spec_dwell (n : Nat) : Option ℚ :=
  if n = SSI_PICKUP ∨ n = SSI_PICKUP_1 then some (12 / 10)
  else if n = SSI_PICKUP_2 then some 1
  else if n = SSI_PICKUP_3 then some 1
  else if n = SSI_MOVE_LEFT ∨ n = SSI_MOVE_LEFT_1 then some 3
  else if n = SSI_FEED ∨ n = SSI_FEED_1 then some 3
  else if n = SSI_PUSH_FOOD ∨ n = SSI_PUSH_FOOD_1 then some 1
  else if n = SSI_DROP_FOOD ∨ n = SSI_DROP_FOOD_1 then some 3
  else if n = SSI_DROP_FOOD_2 then some 1
  else if n = SSI_CLEAN_KITCHEN ∨ n = SSI_CLEAN_KITCHEN_1 then some 6
  else if n = SSI_CLEAN_KITCHEN_2 then some 2
  else if n = SSI_CLEAN_KITCHEN_3 then some 4
  else none

/-- The terminal markers `SSI_*_DONE` of the six routines. -/
def is_terminal_marker (n : Nat) : Bool :=
  decide (n ∈ [SSI_PICKUP_DONE, SSI_MOVE_LEFT_DONE, SSI_FEED_DONE, SSI_PUSH_FOOD_DONE,
    SSI_DROP_FOOD_DONE, SSI_CLEAN_KITCHEN_DONE])

/-- The dwells of the timed steps of a routine, in order. -/
def spec_dwells : Routine → List ℚ
  | .PICKUP => [12 / 10, 1, 1]
  | .MOVE_LEFT => [3]
  | .FEED => [3]
  | .PUSH_FOOD => [1]
  | .DROP_FOOD => [3, 1]
  | .CLEAN_KITCHEN => [6, 2, 4]

/-- Number of numbered steps the specification lists for a routine, its
terminal step included. -/
def spec_step_count : Routine → Nat
  | .PICKUP => 4
  | .MOVE_LEFT => 2
  | .FEED => 2
  | .PUSH_FOOD => 2
  | .DROP_FOOD => 3
  | .CLEAN_KITCHEN => 4

def is_arm_call : Call → Bool
  | .wb_motor_set_position _ _ => true
  | _ => false

def is_gripper_or_base_call : Call → Bool
  | .gripper_release | .gripper_grip => true
  | .base_strafe_left | .base_forwards | .base_reset => true
  | _ => false

def is_speech_call : Call → Bool
  | .speak _ => true
  | _ => false

/-- Every call of kind `p` precedes every call of kind `q`: no call of kind `q`
stands earlier in the list than a call of kind `p`. -/
def all_before (p q : Call → Bool) (l : List Call) : Prop :=
  l.Pairwise (fun a b => ¬ (q a = true ∧ p b = true))

/-- The order the specification gives within one step: arm joint positions,
then gripper and base, then speech. -/
def spec_step_order (l : List Call) : Prop :=
  all_before is_arm_call is_gripper_or_base_call l ∧
  all_before is_gripper_or_base_call is_speech_call l

/-- The engine has entered the first `k` steps of routine `R` since it was
started from `c0`: the calls logged since then are those of these steps, in
order, and the state is `SSI_DONE` when all steps were entered and the index of
the step entered last otherwise. -/
def routine_progress (R : Routine) (c0 c : Controller) (k : Nat) : Prop :=
  k ≤ (spec_steps R).length ∧
  c.calls = c0.calls ++ ((spec_steps R).take k).flatten ∧
  c.sequence_state = if k = (spec_steps R).length then SSI_DONE else R.entry + k

/-- The advancing branch of `sequence_run` at host time `t`: increment, then
dispatch. -/
def advance (t : ℚ) (c : Controller) : Controller :=
  sequence_switch { c with time := t, sequence_state := c.sequence_state + 1 }

/-- Time of the last tick of a run on which `sequence_run` changed
`sequence_state` (a step entry); `acc` is the value before the run. -/
def last_entry_time : List ℚ → Controller → Option ℚ → Option ℚ
  | [], _, acc => acc
  | t :: ts, c, acc =>
      last_entry_time ts (tick t c)
        (if (tick t c).sequence_state ≠ c.sequence_state then some t else acc)

/-- What is known of the deadline of an engine started on `id`: the state is
on an enumerator and, while running, either no step was entered yet (the
deadline is the 0 written by `sequence_start`) or the deadline is the time of
the last entry plus the dwell of the step entered. -/
def entry_invariant (id : Nat) (c : Controller) (acc : Option ℚ) : Prop :=
  c.sequence_state ≤ SSI_DONE ∧
  (c.sequence_state ≠ SSI_DONE →
    (acc = none ∧ c.sequence_timeout_at_time = 0 ∧ c.sequence_state = id) ∨
    (∃ e d, acc = some e ∧ spec_dwell c.sequence_state = some d ∧
      c.sequence_timeout_at_time = e + d))

/-! ## The body of `speak` -/

/-- The bytes of a C string given by its text (without the terminating NUL). -/
def c_str (s : String) : List UInt8 := s.toUTF8.data.toList

/-- The result of `snprintf(buf, size, "<pre>%s<post>", text)`: the formatted
bytes cut to `size - 1` bytes, the last byte of the buffer being kept for the
terminating NUL. -/
def snprintf (size : Nat) (pre text post : List UInt8) : List UInt8 :=
  (pre ++ text ++ post).take (size - 1)

/-- The arguments of one `wb_speaker_speak(speaker, text, volume)`. -/
structure SpeakerRequest where
  text : List UInt8
  volume : ℚ
  deriving DecidableEq

/-- The body of `speak(text)`: format into the static 1000-byte buffer, then
hand the buffer to the speaker at volume 1.0. The `printf` to the console is
not an actuator call and is left out. -/
def speak_request (text : List UInt8) : SpeakerRequest :=
  let buf := snprintf 1000 (c_str "<prosody rate=\"0.75\"><prosody pitch=\"-10st\">") text
    (c_str "</prosody></prosody>")
  { text := buf, volume := 1 }

/-- The text of a speech call of the engine. -/
def Call.utterance : Call → Option String
  | .speak text => some text
  | _ => none

/-- Every text passed to `speak` by some case of the switch of `sequence_run`,
case by case over the 24 enumerators. -/
def routine_utterances : List String :=
  (List.range 24).flatMap fun n =>
    (sequence_switch ⟨0, n, 0, []⟩).calls.filterMap Call.utterance

/-! ## Startup, main loop and shutdown -/

/-- The two supervisor events dispatched by `main`:
`BotSm_EventId_ANY_KEY` and `BotSm_EventId_DO`. -/
inductive BotSm_EventId where
  | ANY_KEY | DO
  deriving DecidableEq, Repr

/-- One call made by `main`, `webots_step`, `speak_init`, `arm_init` or
`safe_machine`, as written in the source. The supervisor `BotSm`, the engine
entry point `sequence_run` and the library initialisers appear as calls; what
happens inside them is not part of this log. -/
inductive Op where
  | wb_robot_init
  | wb_robot_get_device (name : String)
  | wb_speaker_set_language (tag : Nat) (language : String)
  | base_init
  | gripper_init
  | wb_motor_set_velocity (tag : Nat) (velocity : ℚ)
  | BotSm_ctor
  | BotSm_start
  | wb_keyboard_enable (sampling_period : Nat)
  | wb_keyboard_get_key
  | BotSm_dispatch_event (event_id : BotSm_EventId)
  | sequence_run
  | wb_robot_step (duration : Nat)
  | wb_robot_cleanup
  | exit (status : Nat)
  | base_reset
  deriving DecidableEq, Repr

/-- The controller process: the device tags held in `arm_elements` and
`speaker`, the calls made so far (oldest first) and the exit status once
`exit` was called. -/
structure Process where
  arm_elements : Arm → Nat
  speaker : Nat
  log : List Op
  exit_status : Option Nat

/-- Append one call to the log of the process. -/
def Process.call (op : Op) (p : Process) : Process :=
  { p with log := p.log ++ [op] }

/-- The calls logged between two process states. -/
def ops_since (before after : Process) : List Op :=
  after.log.drop before.log.length

/-- `EXIT_SUCCESS` of `stdlib.h`. -/
def EXIT_SUCCESS : Nat := 0

def safe_machine (p : Process) : Process :=
  p |> Process.call Op.base_reset
    |> Process.call (Op.wb_motor_set_velocity (p.arm_elements Arm.ARM1) 0)
    |> Process.call (Op.wb_motor_set_velocity (p.arm_elements Arm.ARM2) 0)
    |> Process.call (Op.wb_motor_set_velocity (p.arm_elements Arm.ARM3) 0)
    |> Process.call (Op.wb_motor_set_velocity (p.arm_elements Arm.ARM4) 0)
    |> Process.call (Op.wb_motor_set_velocity (p.arm_elements Arm.ARM5) 0)

/-- `webots_step()`; `step_result` is what `wb_robot_step(TIME_STEP)` returns,
`-1` when the host asks the controller to terminate. -/
def webots_step (step_result : Int) (p : Process) : Process :=
  let p := p.call (Op.wb_robot_step TIME_STEP)
  if step_result = -1 then
    let p := p.call Op.wb_robot_cleanup
    { p.call (Op.exit EXIT_SUCCESS) with exit_status := some EXIT_SUCCESS }
  else
    p

/-- `arm_init()`; `devices` is the host's `wb_robot_get_device`, which returns
the tag 0 for a name it does not know. The tags are stored unchecked. -/
def arm_init (devices : String → Nat) (p : Process) : Process :=
  let p := p.call (Op.wb_robot_get_device "arm1")
  let p := p.call (Op.wb_robot_get_device "arm2")
  let p := p.call (Op.wb_robot_get_device "arm3")
  let p := p.call (Op.wb_robot_get_device "arm4")
  let p := p.call (Op.wb_robot_get_device "arm5")
  let p := { p with arm_elements := fun a =>
    match a with
    | .ARM1 => devices "arm1"
    | .ARM2 => devices "arm2"
    | .ARM3 => devices "arm3"
    | .ARM4 => devices "arm4"
    | .ARM5 => devices "arm5" }
  p.call (Op.wb_motor_set_velocity (p.arm_elements Arm.ARM2) (5 / 10))

/-- `speak_init()` on a host other than Windows. -/
def speak_init (devices : String → Nat) (p : Process) : Process :=
  let p := { p.call (Op.wb_robot_get_device "speaker") with speaker := devices "speaker" }
  p.call (Op.wb_speaker_set_language p.speaker "en-US")

/-- The process before `main` runs: static storage is zero. -/
def process_start : Process :=
  { arm_elements := fun _ => 0, speaker := 0, log := [], exit_status := none }

/-- The part of `main` before the loop. -/
def main_startup (devices : String → Nat) : Process :=
  process_start
    |> Process.call Op.wb_robot_init
    |> speak_init devices
    |> Process.call Op.base_init
    |> arm_init devices
    |> Process.call Op.gripper_init
    |> Process.call Op.BotSm_ctor
    |> Process.call Op.BotSm_start
    |> Process.call (Op.wb_keyboard_enable TIME_STEP)

/-- One pass through the body of `while (true)`; `key` is what
`wb_keyboard_get_key()` returns and `step_result` what `wb_robot_step`
returns in this pass. -/
def main_iteration (key step_result : Int) (p : Process) : Process :=
  let p := p.call Op.wb_keyboard_get_key
  let p := if key > 0 then p.call (Op.BotSm_dispatch_event BotSm_EventId.ANY_KEY) else p
  let p := p.call (Op.BotSm_dispatch_event BotSm_EventId.DO)
  let p := p.call Op.sequence_run
  webots_step step_result p

/-- The loop of `main` over the host's answers, one pair `(key, step_result)`
per pass; it stops where `exit` was called. -/
def main_loop : List (Int × Int) → Process → Process
  | [], p => p
  | (key, step_result) :: rest, p =>
      match (main_iteration key step_result p).exit_status with
      | some _ => main_iteration key step_result p
      | none => main_loop rest (main_iteration key step_result p)

/-- The whole of `main` against a host. -/
def main (devices : String → Nat) (answers : List (Int × Int)) : Process :=
  main_loop answers (main_startup devices)

/-- The calls of one pass of the loop as the specification orders them: poll
the keyboard, `ANY_KEY` if a key is present, the tick event, the engine, the
host step. -/
def spec_iteration_ops (key : Int) : List Op :=
  [Op.wb_keyboard_get_key] ++
  (if key > 0 then [Op.BotSm_dispatch_event BotSm_EventId.ANY_KEY] else []) ++
  [Op.BotSm_dispatch_event BotSm_EventId.DO, Op.sequence_run, Op.wb_robot_step 32]

/-- A host on which every device resolves to tag 7 except `arm3`, which is
unknown. -/
def host_without_arm3 (name : String) : Nat :=
  if name = "arm3" then 0 else 7

/-! ## Concrete controller states used in the examples -/

/-- An idle controller at host time `t`: no routine running, empty call log. -/
def idle_at (t : ℚ) : Controller := ⟨t, SSI_DONE, 0, []⟩

/-- A controller parked on the last terminal marker with its timer expired. -/
def at_last_marker : Controller := ⟨1, SSI_CLEAN_KITCHEN_DONE, 0, []⟩

/-! ## Basic facts about one call of the engine -/

attribute [simp] emit speak gripper_release gripper_grip base_strafe_left base_forwards
  base_reset wb_motor_set_position sequence_delay sequence_mark_complete wb_robot_get_time
  lit M_PI_times

attribute [simp] SSI_PICKUP SSI_PICKUP_1 SSI_PICKUP_2 SSI_PICKUP_3 SSI_PICKUP_DONE
  SSI_MOVE_LEFT SSI_MOVE_LEFT_1 SSI_MOVE_LEFT_DONE SSI_FEED SSI_FEED_1 SSI_FEED_DONE
  SSI_PUSH_FOOD SSI_PUSH_FOOD_1 SSI_PUSH_FOOD_DONE SSI_DROP_FOOD SSI_DROP_FOOD_1
  SSI_DROP_FOOD_2 SSI_DROP_FOOD_DONE SSI_CLEAN_KITCHEN SSI_CLEAN_KITCHEN_1
  SSI_CLEAN_KITCHEN_2 SSI_CLEAN_KITCHEN_3 SSI_CLEAN_KITCHEN_DONE SSI_DONE

theorem sequence_switch_invalid (c : Controller) (h : 24 ≤ c.sequence_state) :
    sequence_switch c = c := by
  unfold sequence_switch
  split <;> first | rfl | (rename_i heq; rw [heq] at h; exact absurd h (by decide))

theorem sequence_run_wait (c : Controller) (h : c.time ≤ c.sequence_timeout_at_time) :
    sequence_run c = c := by
  simp [sequence_run, is_sequence_timer_expired, wb_robot_get_time, h]

theorem sequence_run_done (c : Controller) (h : c.sequence_state = SSI_DONE) :
    sequence_run c = c := by
  simp only [SSI_DONE] at h
  simp [sequence_run, is_sequence_complete, is_sequence_running, h]

theorem sequence_run_advance (c : Controller) (h : c.sequence_timeout_at_time < c.time)
    (hr : c.sequence_state ≠ SSI_DONE) :
    sequence_run c = sequence_switch { c with sequence_state := c.sequence_state + 1 } := by
  simp only [SSI_DONE] at hr
  simp [sequence_run, is_sequence_complete, is_sequence_running, is_sequence_timer_expired,
    wb_robot_get_time, h, hr]

theorem tick_wait (t : ℚ) (c : Controller) (h : t ≤ c.sequence_timeout_at_time) :
    tick t c = { c with time := t } :=
  sequence_run_wait _ h

theorem tick_done (t : ℚ) (c : Controller) (h : c.sequence_state = SSI_DONE) :
    tick t c = { c with time := t } :=
  sequence_run_done _ h

theorem tick_advance (t : ℚ) (c : Controller) (h : c.sequence_timeout_at_time < t)
    (hr : c.sequence_state ≠ SSI_DONE) :
    tick t c = sequence_switch { c with time := t, sequence_state := c.sequence_state + 1 } :=
  sequence_run_advance _ h hr

theorem sequence_run_leaves_iff (c : Controller) (hr : c.sequence_state ≠ SSI_DONE) :
    (sequence_run c).sequence_state ≠ c.sequence_state ↔
      c.sequence_timeout_at_time < c.time := by
  constructor
  · intro hne
    by_contra hle
    exact hne (by rw [sequence_run_wait c (not_lt.mp hle)])
  · intro hlt
    rw [sequence_run_advance c hlt hr]
    obtain ⟨t, n, d, l⟩ := c
    rcases Nat.lt_or_ge n 23 with hn | hn
    · simp only at hn hr ⊢
      interval_cases n <;> simp [sequence_switch]
    · rw [sequence_switch_invalid _ (by simp only; omega)]
      simp

theorem tick_leaves_iff (t : ℚ) (c : Controller) (hr : c.sequence_state ≠ SSI_DONE) :
    (tick t c).sequence_state ≠ c.sequence_state ↔ c.sequence_timeout_at_time < t :=
  sequence_run_leaves_iff { c with time := t } hr

/-! ## Single-call properties -/

/-- C2, as stated, fails: from `SSI_CLEAN_KITCHEN_DONE` with the timer expired the
new index is `SSI_DONE`, which is no routine's terminal marker and has no dwell
in the table, so the deadline is not `now + dwell` for any table dwell. -/
theorem tick_policy_fails_at_last_marker :
    at_last_marker.sequence_state ≠ SSI_DONE ∧
    at_last_marker.sequence_timeout_at_time < at_last_marker.time ∧
    is_terminal_marker (at_last_marker.sequence_state + 1) = false ∧
    ¬ ∃ d, spec_dwell (at_last_marker.sequence_state + 1) = some d ∧
        (sequence_run at_last_marker).sequence_timeout_at_time = at_last_marker.time + d := by
  refine ⟨by simp [at_last_marker], by simp [at_last_marker],
    by simp [at_last_marker, is_terminal_marker], ?_⟩
  rintro ⟨d, hd, -⟩
  simp [at_last_marker, spec_dwell] at hd

/-- C2 (amended): for every engine state on an enumerator other than `SSI_DONE`
and every tick time past the deadline, `sequence_run` increments the index; if
the new index is a terminal marker or `SSI_DONE` itself the state becomes
`SSI_DONE` and the deadline is unchanged; otherwise the state is the new index
and the deadline is `now + dwell` with the dwell of the specification table. -/
theorem tick_policy (c : Controller) (hv : c.sequence_state < SSI_DONE)
    (ht : c.sequence_timeout_at_time < c.time) :
    (is_terminal_marker (c.sequence_state + 1) = true ∨ c.sequence_state + 1 = SSI_DONE →
      (sequence_run c).sequence_state = SSI_DONE ∧
      (sequence_run c).sequence_timeout_at_time = c.sequence_timeout_at_time) ∧
    (¬ (is_terminal_marker (c.sequence_state + 1) = true ∨ c.sequence_state + 1 = SSI_DONE) →
      (sequence_run c).sequence_state = c.sequence_state + 1 ∧
      ∃ d, spec_dwell (c.sequence_state + 1) = some d ∧
        (sequence_run c).sequence_timeout_at_time = c.time + d) := by
  rw [sequence_run_advance c ht (Nat.ne_of_lt hv)]
  obtain ⟨t, n, d, l⟩ := c
  simp only [SSI_DONE] at hv
  clear ht
  interval_cases n <;> simp [sequence_switch, is_terminal_marker, spec_dwell]

/-- Scenario S1 for C2: MOVE_LEFT entered by the tick at 0.032 gets the
deadline 3.032. -/
theorem tick_policy_witness :
    (⟨32 / 1000, SSI_MOVE_LEFT, 0, []⟩ : Controller).sequence_state < SSI_DONE ∧
    (sequence_run ⟨32 / 1000, SSI_MOVE_LEFT, 0, []⟩).sequence_state = SSI_MOVE_LEFT_1 ∧
    (sequence_run ⟨32 / 1000, SSI_MOVE_LEFT, 0, []⟩).sequence_timeout_at_time = 3032 / 1000 := by
  have h := (tick_policy ⟨32 / 1000, SSI_MOVE_LEFT, 0, []⟩ (by simp) (by norm_num)).2
    (by simp [is_terminal_marker])
  obtain ⟨h1, d, hd, h2⟩ := h
  refine ⟨by simp, by simpa using h1, ?_⟩
  simp [spec_dwell] at hd
  subst hd
  rw [h2]; norm_num

/-- C3, as stated, fails: at host time 5 the deadline after `sequence_start` is
not the host time. -/
theorem start_deadline_is_not_now :
    ¬ ((sequence_start SSI_PICKUP (idle_at 5)).sequence_timeout_at_time =
        wb_robot_get_time (sequence_start SSI_PICKUP (idle_at 5))) := by
  simp [sequence_start, idle_at]

/-- C3 (amended): right after `sequence_start` on the entry marker of any
routine, at any host time, the deadline is 0, the step index is the entry
marker and the engine is running; clock and call log are untouched. -/
theorem start_resets_deadline_to_zero (R : Routine) (c : Controller) :
    (sequence_start R.entry c).sequence_timeout_at_time = 0 ∧
    (sequence_start R.entry c).sequence_state = R.entry ∧
    is_sequence_running (sequence_start R.entry c) = true ∧
    (sequence_start R.entry c).time = c.time ∧
    (sequence_start R.entry c).calls = c.calls := by
  cases R <;> simp [sequence_start, is_sequence_running, Routine.entry]

/-- C4, as stated, fails: the tick that enters PICKUP step 1 emits speech first,
then the gripper release, then the four arm positions. -/
theorem pickup_entry_breaks_step_order :
    emitted (sequence_start SSI_PICKUP (idle_at 0))
        (tick (32 / 1000) (sequence_start SSI_PICKUP (idle_at 0))) =
      [Call.speak "Time for your vegetables!", Call.gripper_release,
        Call.wb_motor_set_position Arm.ARM1 ⟨0, 0⟩,
        Call.wb_motor_set_position Arm.ARM2 ⟨0, 0⟩,
        Call.wb_motor_set_position Arm.ARM3 ⟨0, -77 / 100⟩,
        Call.wb_motor_set_position Arm.ARM4 ⟨0, -121 / 100⟩] ∧
    ¬ spec_step_order (emitted (sequence_start SSI_PICKUP (idle_at 0))
        (tick (32 / 1000) (sequence_start SSI_PICKUP (idle_at 0)))) := by
  have h : tick (32 / 1000) (sequence_start SSI_PICKUP (idle_at 0)) =
      sequence_switch ⟨32 / 1000, 1, 0, []⟩ := by
    rw [tick_advance _ _ (by norm_num [sequence_start, idle_at])
      (by simp [sequence_start, idle_at])]
    simp [sequence_start, idle_at]
  rw [h]
  simp [emitted, sequence_start, idle_at, sequence_switch, spec_step_order, all_before,
    is_arm_call, is_gripper_or_base_call, is_speech_call]

/-- C4 (amended): on the tick that enters a step, the calls come in the order
arms, then gripper and base, then speech exactly when the entered index is not
the first step of PICKUP, MOVE_LEFT, PUSH_FOOD or CLEAN_KITCHEN nor the second
step of DROP_FOOD; in those steps a speech call precedes a gripper or base
call. -/
theorem step_order_holds_exactly (c : Controller) (t : ℚ) (hv : c.sequence_state < SSI_DONE)
    (ht : c.sequence_timeout_at_time < t) :
    (spec_step_order (emitted c (tick t c)) ↔
      c.sequence_state + 1 ∉ [SSI_PICKUP_1, SSI_MOVE_LEFT, SSI_MOVE_LEFT_1, SSI_PUSH_FOOD,
        SSI_PUSH_FOOD_1, SSI_DROP_FOOD_2, SSI_CLEAN_KITCHEN, SSI_CLEAN_KITCHEN_1]) := by
  rw [tick_advance t c ht (Nat.ne_of_lt hv)]
  obtain ⟨t0, n, d, l⟩ := c
  simp only [SSI_DONE] at hv
  clear ht
  interval_cases n <;>
    simp [emitted, sequence_switch, spec_step_order, all_before, is_arm_call,
      is_gripper_or_base_call, is_speech_call]

/-- The order of C4 does hold on the tick entering CLEAN_KITCHEN step 2
(base reset, then speech). -/
theorem step_order_holds_exactly_witness :
    (⟨7, SSI_CLEAN_KITCHEN_1, 7, []⟩ : Controller).sequence_state < SSI_DONE ∧
    spec_step_order (emitted ⟨7, SSI_CLEAN_KITCHEN_1, 7, []⟩
      (tick 8 ⟨7, SSI_CLEAN_KITCHEN_1, 7, []⟩)) :=
  ⟨by simp, (step_order_holds_exactly ⟨7, SSI_CLEAN_KITCHEN_1, 7, []⟩ 8 (by simp)
    (by norm_num)).2 (by simp)⟩

/-- C7: once the engine is `SSI_DONE`, `sequence_run` changes nothing (no call,
state and deadline kept), whatever the deadline and the tick time; hence any
number of ticks leaves the call log, the state and the deadline as they are. -/
theorem done_stays_silent (c : Controller) (h : c.sequence_state = SSI_DONE) :
    sequence_run c = c ∧
    ∀ ts : List ℚ, (run_ticks ts c).calls = c.calls ∧
      (run_ticks ts c).sequence_state = SSI_DONE ∧
      (run_ticks ts c).sequence_timeout_at_time = c.sequence_timeout_at_time := by
  refine ⟨sequence_run_done c h, fun ts => ?_⟩
  induction ts generalizing c with
  | nil => simp [run_ticks, h]
  | cons t ts ih =>
    have ht : tick t c = { c with time := t } := sequence_run_done _ h
    have := ih (tick t c) (by rw [ht]; exact h)
    simpa [run_ticks, ht] using this

/-- An aborted engine whose deadline 3 is long past stays silent at time 10
and over three further ticks. -/
theorem done_stays_silent_witness :
    (⟨10, SSI_DONE, 3, [Call.base_forwards]⟩ : Controller).sequence_state = SSI_DONE ∧
    sequence_run ⟨10, SSI_DONE, 3, [Call.base_forwards]⟩ =
      ⟨10, SSI_DONE, 3, [Call.base_forwards]⟩ ∧
    (run_ticks [11, 12, 13] ⟨10, SSI_DONE, 3, [Call.base_forwards]⟩).calls =
      [Call.base_forwards] :=
  ⟨rfl, (done_stays_silent ⟨10, SSI_DONE, 3, [Call.base_forwards]⟩ rfl).1,
    ((done_stays_silent ⟨10, SSI_DONE, 3, [Call.base_forwards]⟩ rfl).2 [11, 12, 13]).1⟩

/-- C8: for every engine state on an enumerator and every host time, calling
`sequence_run` a second time at the same host time changes nothing: same state,
same deadline, no further call. -/
theorem run_twice_same_time (c : Controller) (hv : c.sequence_state ≤ SSI_DONE) :
    sequence_run (sequence_run c) = sequence_run c := by
  by_cases hd : c.sequence_state = SSI_DONE
  · rw [sequence_run_done c hd, sequence_run_done c hd]
  by_cases hw : c.time ≤ c.sequence_timeout_at_time
  · rw [sequence_run_wait c hw, sequence_run_wait c hw]
  rw [sequence_run_advance c (not_le.mp hw) hd]
  obtain ⟨t, n, d, l⟩ := c
  simp only [SSI_DONE] at hv hd
  have hn : n < 23 := by omega
  clear hv hd
  interval_cases n <;>
    solve
    | (apply sequence_run_done; simp [sequence_switch])
    | (apply sequence_run_wait; norm_num [sequence_switch])

/-- A second call at time 1 after MOVE_LEFT step 1 was entered at time 1 is a
no-op. -/
theorem run_twice_same_time_witness :
    (⟨1, SSI_MOVE_LEFT, 0, []⟩ : Controller).sequence_state ≤ SSI_DONE ∧
    sequence_run (sequence_run ⟨1, SSI_MOVE_LEFT, 0, []⟩) =
      sequence_run ⟨1, SSI_MOVE_LEFT, 0, []⟩ :=
  ⟨by simp, run_twice_same_time ⟨1, SSI_MOVE_LEFT, 0, []⟩ (by simp)⟩

/-- C9: with `now ≤ deadline`, in particular `now = deadline`, `sequence_run`
changes nothing; and a running engine leaves its step if and only if
`now > deadline`. -/
theorem strict_deadline (c : Controller) :
    (c.time ≤ c.sequence_timeout_at_time → sequence_run c = c) ∧
    (c.sequence_state ≠ SSI_DONE →
      ((sequence_run c).sequence_state ≠ c.sequence_state ↔
        c.sequence_timeout_at_time < c.time)) :=
  ⟨sequence_run_wait c, sequence_run_leaves_iff c⟩

/-- A tick arriving exactly at the deadline 3 of FEED step 1 does not
advance. -/
theorem strict_deadline_witness :
    (⟨3, SSI_FEED_1, 3, []⟩ : Controller).time ≤
      (⟨3, SSI_FEED_1, 3, []⟩ : Controller).sequence_timeout_at_time ∧
    sequence_run ⟨3, SSI_FEED_1, 3, []⟩ = ⟨3, SSI_FEED_1, 3, []⟩ :=
  ⟨le_refl _, (strict_deadline ⟨3, SSI_FEED_1, 3, []⟩).1 (le_refl _)⟩

/-- C10: `sequence_start` of any routine followed at once by `sequence_abort`
leaves `SSI_DONE` and emits no call; from any state `sequence_abort` only sets
`sequence_state` to `SSI_DONE`: deadline, clock and call log are unchanged. -/
theorem abort_marks_done (c : Controller) :
    (∀ R : Routine,
      (sequence_abort (sequence_start R.entry c)).sequence_state = SSI_DONE ∧
      emitted c (sequence_abort (sequence_start R.entry c)) = []) ∧
    sequence_abort c = { c with sequence_state := SSI_DONE } ∧
    emitted c (sequence_abort c) = [] := by
  simp [sequence_abort, sequence_start, emitted]

/-! ## Runs of ticks: the calls of a whole routine -/

theorem routine_progress_tick (R : Routine) (c0 c : Controller) (t : ℚ) (k : Nat)
    (h : routine_progress R c0 c k) :
    routine_progress R c0 (tick t c) k ∨ routine_progress R c0 (tick t c) (k + 1) := by
  obtain ⟨hk, hcalls, hstate⟩ := h
  by_cases hw : t ≤ c.sequence_timeout_at_time
  · left
    rw [tick_wait t c hw]
    exact ⟨hk, hcalls, hstate⟩
  by_cases hd : c.sequence_state = SSI_DONE
  · left
    rw [tick_done t c hd]
    exact ⟨hk, hcalls, hstate⟩
  right
  rw [tick_advance t c (not_le.mp hw) hd]
  obtain ⟨t0, n, d, l⟩ := c
  simp only at hcalls hstate hd
  subst hcalls
  cases R <;> simp only [spec_steps, List.length] at hk <;> interval_cases k <;>
    simp [Routine.entry, spec_steps] at hstate <;> subst hstate <;>
    first
    | (exfalso; exact hd rfl)
    | simp [routine_progress, sequence_switch, spec_steps, Routine.entry]

theorem routine_progress_start (R : Routine) (c0 : Controller) :
    routine_progress R c0 (sequence_start R.entry c0) 0 := by
  cases R <;> simp [routine_progress, sequence_start, spec_steps]

theorem routine_progress_run (R : Routine) (c0 : Controller) (ts : List ℚ) (c : Controller)
    (k : Nat) (h : routine_progress R c0 c k) :
    ∃ k', routine_progress R c0 (run_ticks ts c) k' := by
  induction ts generalizing c k with
  | nil => exact ⟨k, h⟩
  | cons t ts ih =>
    rcases routine_progress_tick R c0 c t k h with h' | h'
    · exact ih _ _ h'
    · exact ih _ _ h'

theorem routine_progress_done_iff (R : Routine) (c0 c : Controller) (k : Nat)
    (h : routine_progress R c0 c k) :
    c.sequence_state = SSI_DONE ↔ k = (spec_steps R).length := by
  obtain ⟨hk, -, hstate⟩ := h
  rw [hstate]
  cases R <;> simp only [spec_steps, List.length] at hk ⊢ <;> interval_cases k <;>
    simp [Routine.entry]

/-- C1: for each of the six routines and every sequence of tick times, the
calls emitted after `sequence_start` on the entry marker are the actions of the
first `k` steps of the routine definition, in the listed order and once each,
for some `k`; the engine is `SSI_DONE` exactly when `k` is the number of steps,
and then the emitted list is the concatenation of all step actions. `SSI_DONE`
is reached, for instance by the ticks at 1, 8, 15 and 22. -/
theorem routine_emits_spec_steps (R : Routine) (c0 : Controller) (ts : List ℚ) :
    (∃ k, k ≤ (spec_steps R).length ∧
      emitted c0 (run_ticks ts (sequence_start R.entry c0)) =
        ((spec_steps R).take k).flatten ∧
      ((run_ticks ts (sequence_start R.entry c0)).sequence_state = SSI_DONE ↔
        k = (spec_steps R).length)) ∧
    ((run_ticks ts (sequence_start R.entry c0)).sequence_state = SSI_DONE →
      emitted c0 (run_ticks ts (sequence_start R.entry c0)) = (spec_steps R).flatten) ∧
    (run_ticks [1, 8, 15, 22] (sequence_start R.entry c0)).sequence_state = SSI_DONE := by
  obtain ⟨k, hk⟩ := routine_progress_run R c0 ts _ 0 (routine_progress_start R c0)
  have hiff := routine_progress_done_iff R c0 _ k hk
  have hem : emitted c0 (run_ticks ts (sequence_start R.entry c0)) =
      ((spec_steps R).take k).flatten := by
    rw [emitted, hk.2.1]; simp
  refine ⟨⟨k, hk.1, hem, hiff⟩, fun hd => ?_, ?_⟩
  · rw [hem, hiff.mp hd, List.take_length]
  · cases R <;>
      norm_num [run_ticks, tick, sequence_run, sequence_start, is_sequence_timer_expired,
        is_sequence_complete, is_sequence_running, sequence_switch, Routine.entry]

/-- Scenario S1 for C1: MOVE_LEFT started at 0 and ticked at 0.032 and 3.040 is
`SSI_DONE` and has emitted speech, strafe-left, base reset. -/
theorem routine_emits_spec_steps_witness :
    (run_ticks [32 / 1000, 3040 / 1000]
      (sequence_start Routine.MOVE_LEFT.entry (idle_at 0))).sequence_state = SSI_DONE ∧
    emitted (idle_at 0) (run_ticks [32 / 1000, 3040 / 1000]
      (sequence_start Routine.MOVE_LEFT.entry (idle_at 0))) =
      [Call.speak "Here comes the nomm nomm train!", Call.base_strafe_left,
        Call.base_reset] := by
  have hd : (run_ticks [32 / 1000, 3040 / 1000]
      (sequence_start Routine.MOVE_LEFT.entry (idle_at 0))).sequence_state = SSI_DONE := by
    norm_num [run_ticks, tick, sequence_run, sequence_start, is_sequence_timer_expired,
        is_sequence_complete, is_sequence_running, sequence_switch, Routine.entry, idle_at]
  exact ⟨hd, (routine_emits_spec_steps Routine.MOVE_LEFT (idle_at 0) _).2.1 hd⟩

/-! ## Regular ticks: dwell of one step -/

theorem first_leaving_tick_eq (t0 : ℚ) (c : Controller) (k0 : Nat)
    (hleave : (tick (t0 + k0 * fixed_step) c).sequence_state ≠ c.sequence_state) :
    ∀ fuel k, k ≤ k0 → k0 < k + fuel →
      (∀ j : Nat, k ≤ j → j < k0 →
        (tick (t0 + j * fixed_step) c).sequence_state = c.sequence_state) →
      first_leaving_tick t0 c fuel k = some k0 := by
  intro fuel
  induction fuel with
  | zero => intro k h1 h2; omega
  | succ fuel ih =>
    intro k h1 h2 hstay
    rcases Nat.eq_or_lt_of_le h1 with heq | hlt
    · subst heq
      simp [first_leaving_tick, hleave]
    · have hs := hstay k (le_refl k) hlt
      rw [first_leaving_tick, if_neg (by simpa using hs)]
      exact ih (k + 1) hlt (by omega) (fun j hj => hstay j (by omega))

theorem first_leaving_tick_dwell (c : Controller) (e d : ℚ) (K : Nat)
    (hr : c.sequence_state ≠ SSI_DONE) (hD : c.sequence_timeout_at_time = e + d)
    (h1 : ((K : ℚ) - 1) * fixed_step ≤ d) (h2 : d < K * fixed_step)
    (hK1 : 1 ≤ K) (hK2 : K ≤ 200) :
    first_leaving_tick e c 200 1 = some K := by
  have hpos : (0 : ℚ) < fixed_step := by norm_num [fixed_step, TIME_STEP]
  apply first_leaving_tick_eq e c K _ 200 1 hK1 (by omega)
  · intro j _ hj
    by_contra hne
    have hlt := (tick_leaves_iff _ c hr).mp hne
    rw [hD] at hlt
    have hjK : (j : ℚ) + 1 ≤ K := by exact_mod_cast hj
    have : (j : ℚ) * fixed_step ≤ ((K : ℚ) - 1) * fixed_step :=
      mul_le_mul_of_nonneg_right (by linarith) hpos.le
    linarith
  · apply (tick_leaves_iff _ c hr).mpr
    rw [hD]; linarith

/-- C5, as stated, fails: CLEAN_KITCHEN step 3 entered by the tick at 8 is left
by the 126th following tick, so its observed dwell is 126 ticks = 4.032 s,
which is not below `4 + fixed_step`. -/
theorem clean_kitchen_3_dwell_reaches_upper_bound :
    first_leaving_tick 8 (tick 8 ⟨0, SSI_CLEAN_KITCHEN_2, 0, []⟩) 200 1 = some 126 ∧
    ¬ ((126 : ℚ) * fixed_step < 4 + fixed_step) := by
  refine ⟨?_, by norm_num [fixed_step, TIME_STEP]⟩
  rw [tick_advance 8 _ (by norm_num) (by simp)]
  refine first_leaving_tick_dwell _ 8 4 126 ?_ ?_ ?_ ?_ ?_ ?_ <;>
    norm_num [sequence_switch, fixed_step, TIME_STEP]

/-- C5 (amended): with ticks exactly `fixed_step` apart, a timed step with dwell
`d` entered by the tick at `e` is left by the `k`-th following tick, where
`d ≤ k * fixed_step ≤ d + fixed_step`; the upper bound is strict for every step
other than CLEAN_KITCHEN step 3, and CLEAN_KITCHEN step 3 entered by the tick at
8 reaches it: it is left by the 126th following tick, `4 + fixed_step` after
its entry. -/
theorem observed_dwell_bounds (c : Controller) (e d : ℚ) (hv : c.sequence_state < SSI_DONE)
    (ht : c.sequence_timeout_at_time < e) (hd : spec_dwell (c.sequence_state + 1) = some d) :
    (∃ k : Nat, first_leaving_tick e (tick e c) 200 1 = some k ∧
      d ≤ k * fixed_step ∧ (k : ℚ) * fixed_step ≤ d + fixed_step ∧
      (c.sequence_state + 1 ≠ SSI_CLEAN_KITCHEN_3 →
        (k : ℚ) * fixed_step < d + fixed_step)) ∧
    (first_leaving_tick 8 (tick 8 ⟨0, SSI_CLEAN_KITCHEN_2, 0, []⟩) 200 1 = some 126 ∧
      (126 : ℚ) * fixed_step = 4 + fixed_step) := by
  constructor
  · rw [tick_advance e c ht (Nat.ne_of_lt hv)]
    obtain ⟨t0, n, D, l⟩ := c
    simp only [SSI_DONE] at hv
    clear ht
    interval_cases n <;> simp [spec_dwell] at hd <;> subst hd <;>
      solve
      | (refine ⟨38, first_leaving_tick_dwell _ e (12 / 10) 38 ?_ ?_ ?_ ?_ ?_ ?_, ?_, ?_, ?_⟩ <;>
          norm_num [sequence_switch, fixed_step, TIME_STEP])
      | (refine ⟨32, first_leaving_tick_dwell _ e 1 32 ?_ ?_ ?_ ?_ ?_ ?_, ?_, ?_, ?_⟩ <;>
          norm_num [sequence_switch, fixed_step, TIME_STEP])
      | (refine ⟨94, first_leaving_tick_dwell _ e 3 94 ?_ ?_ ?_ ?_ ?_ ?_, ?_, ?_, ?_⟩ <;>
          norm_num [sequence_switch, fixed_step, TIME_STEP])
      | (refine ⟨188, first_leaving_tick_dwell _ e 6 188 ?_ ?_ ?_ ?_ ?_ ?_, ?_, ?_, ?_⟩ <;>
          norm_num [sequence_switch, fixed_step, TIME_STEP])
      | (refine ⟨63, first_leaving_tick_dwell _ e 2 63 ?_ ?_ ?_ ?_ ?_ ?_, ?_, ?_, ?_⟩ <;>
          norm_num [sequence_switch, fixed_step, TIME_STEP])
      | (refine ⟨126, first_leaving_tick_dwell _ e 4 126 ?_ ?_ ?_ ?_ ?_ ?_, ?_, ?_, ?_⟩ <;>
          norm_num [sequence_switch, fixed_step, TIME_STEP])
  · refine ⟨?_, by norm_num [fixed_step, TIME_STEP]⟩
    rw [tick_advance 8 _ (by norm_num) (by simp)]
    refine first_leaving_tick_dwell _ 8 4 126 ?_ ?_ ?_ ?_ ?_ ?_ <;>
      norm_num [sequence_switch, fixed_step, TIME_STEP]

/-- PICKUP step 1 (dwell 1.2) entered by the tick at 0.032: the observed dwell
is at least 1.2 and below `1.2 + fixed_step`. -/
theorem observed_dwell_bounds_witness :
    (⟨0, SSI_PICKUP, 0, []⟩ : Controller).sequence_state < SSI_DONE ∧
    ∃ k : Nat, first_leaving_tick (32 / 1000) (tick (32 / 1000) ⟨0, SSI_PICKUP, 0, []⟩) 200 1 =
        some k ∧
      (12 / 10 : ℚ) ≤ k * fixed_step ∧ (k : ℚ) * fixed_step < 12 / 10 + fixed_step := by
  obtain ⟨⟨k, h1, h2, -, h4⟩, -⟩ := observed_dwell_bounds ⟨0, SSI_PICKUP, 0, []⟩ (32 / 1000)
    (12 / 10) (by simp) (by norm_num) (by simp [spec_dwell])
  exact ⟨by simp, k, h1, h2, h4 (by simp)⟩

/-! ## Regular ticks: duration of a whole routine -/

theorem ticks_to_done_time (t0 x : ℚ) (fuel k : Nat) (c : Controller) :
    ticks_to_done t0 fuel k { c with time := x } = ticks_to_done t0 fuel k c := by
  cases fuel with
  | zero => rfl
  | succ fuel => rfl

theorem ticks_to_done_phase (t0 : ℚ) (c : Controller) (K : Nat)
    (hr : c.sequence_state ≠ SSI_DONE)
    (hgo : c.sequence_timeout_at_time < t0 + K * fixed_step) :
    ∀ fuel k, k ≤ K → K < k + fuel →
      (∀ j : Nat, k ≤ j → j < K → t0 + j * fixed_step ≤ c.sequence_timeout_at_time) →
      ticks_to_done t0 fuel k c =
        if (tick (t0 + K * fixed_step) c).sequence_state = SSI_DONE then some K
        else ticks_to_done t0 (fuel - (K - k) - 1) (K + 1) (tick (t0 + K * fixed_step) c) := by
  intro fuel
  induction fuel with
  | zero => intro k h1 h2; omega
  | succ fuel ih =>
    intro k h1 h2 hstay
    rcases Nat.eq_or_lt_of_le h1 with heq | hlt
    · subst heq
      simp [ticks_to_done]
    · have hs := tick_wait _ c (hstay k (le_refl k) hlt)
      rw [ticks_to_done, hs, if_neg (by simpa using hr), ticks_to_done_time]
      rw [ih (k + 1) hlt (by omega) (fun j hj => hstay j (by omega))]
      have : fuel + 1 - (K - k) - 1 = fuel - (K - (k + 1)) - 1 := by omega
      rw [this]

theorem ticks_to_done_step (t0 : ℚ) (c : Controller) (k K fuel : Nat) (a : ℚ)
    (hr : c.sequence_state ≠ SSI_DONE) (hD : c.sequence_timeout_at_time = t0 + a)
    (hk : k ≤ K) (hf : K < k + fuel)
    (h1 : k < K → ((K : ℚ) - 1) * fixed_step ≤ a) (h2 : a < K * fixed_step) :
    ticks_to_done t0 fuel k c =
      if (advance (t0 + K * fixed_step) c).sequence_state = SSI_DONE then some K
      else ticks_to_done t0 (fuel - (K - k) - 1) (K + 1) (advance (t0 + K * fixed_step) c) := by
  have hpos : (0 : ℚ) < fixed_step := by norm_num [fixed_step, TIME_STEP]
  have hgo : c.sequence_timeout_at_time < t0 + K * fixed_step := by rw [hD]; linarith
  rw [ticks_to_done_phase t0 c K hr hgo fuel k hk hf, tick_advance _ c hgo hr]
  · rfl
  intro j hj1 hj2
  have hjK : (j : ℚ) + 1 ≤ K := by exact_mod_cast hj2
  have := h1 (lt_of_le_of_lt hj1 hj2)
  have : (j : ℚ) * fixed_step ≤ ((K : ℚ) - 1) * fixed_step :=
    mul_le_mul_of_nonneg_right (by linarith) hpos.le
  rw [hD]; linarith

theorem ticks_to_done_PICKUP (c0 : Controller) (t0 : ℚ) (h0 : 0 ≤ t0) :
    ticks_to_done t0 400 1 (sequence_start SSI_PICKUP c0) = some 103 := by
  rw [ticks_to_done_step t0 _ 1 1 400 (-t0) (by simp [sequence_start])
    (by simp [sequence_start]) (by norm_num) (by norm_num) (by norm_num)
    (by norm_num [fixed_step, TIME_STEP]; linarith)]
  simp [sequence_start, sequence_switch, advance]
  rw [ticks_to_done_step t0 _ 2 39 399 (1 * fixed_step + 12 / 10) (by simp)
    (by dsimp only; ring) (by norm_num) (by norm_num)
    (by norm_num [fixed_step, TIME_STEP]) (by norm_num [fixed_step, TIME_STEP])]
  simp [sequence_switch, advance]
  rw [ticks_to_done_step t0 _ 40 71 361 (39 * fixed_step + 1) (by simp)
    (by dsimp only; ring) (by norm_num) (by norm_num)
    (by norm_num [fixed_step, TIME_STEP]) (by norm_num [fixed_step, TIME_STEP])]
  simp [sequence_switch, advance]
  rw [ticks_to_done_step t0 _ 72 103 329 (71 * fixed_step + 1) (by simp)
    (by dsimp only; ring) (by norm_num) (by norm_num)
    (by norm_num [fixed_step, TIME_STEP]) (by norm_num [fixed_step, TIME_STEP])]
  simp [sequence_switch, advance]

theorem ticks_to_done_MOVE_LEFT (c0 : Controller) (t0 : ℚ) (h0 : 0 ≤ t0) :
    ticks_to_done t0 400 1 (sequence_start SSI_MOVE_LEFT c0) = some 95 := by
  rw [ticks_to_done_step t0 _ 1 1 400 (-t0) (by simp [sequence_start])
    (by simp [sequence_start]) (by norm_num) (by norm_num) (by norm_num)
    (by norm_num [fixed_step, TIME_STEP]; linarith)]
  simp [sequence_start, sequence_switch, advance]
  rw [ticks_to_done_step t0 _ 2 95 399 (1 * fixed_step + 3) (by simp)
    (by dsimp only; ring) (by norm_num) (by norm_num)
    (by norm_num [fixed_step, TIME_STEP]) (by norm_num [fixed_step, TIME_STEP])]
  simp [sequence_switch, advance]

theorem ticks_to_done_FEED (c0 : Controller) (t0 : ℚ) (h0 : 0 ≤ t0) :
    ticks_to_done t0 400 1 (sequence_start SSI_FEED c0) = some 95 := by
  rw [ticks_to_done_step t0 _ 1 1 400 (-t0) (by simp [sequence_start])
    (by simp [sequence_start]) (by norm_num) (by norm_num) (by norm_num)
    (by norm_num [fixed_step, TIME_STEP]; linarith)]
  simp [sequence_start, sequence_switch, advance]
  rw [ticks_to_done_step t0 _ 2 95 399 (1 * fixed_step + 3) (by simp)
    (by dsimp only; ring) (by norm_num) (by norm_num)
    (by norm_num [fixed_step, TIME_STEP]) (by norm_num [fixed_step, TIME_STEP])]
  simp [sequence_switch, advance]

theorem ticks_to_done_PUSH_FOOD (c0 : Controller) (t0 : ℚ) (h0 : 0 ≤ t0) :
    ticks_to_done t0 400 1 (sequence_start SSI_PUSH_FOOD c0) = some 33 := by
  rw [ticks_to_done_step t0 _ 1 1 400 (-t0) (by simp [sequence_start])
    (by simp [sequence_start]) (by norm_num) (by norm_num) (by norm_num)
    (by norm_num [fixed_step, TIME_STEP]; linarith)]
  simp [sequence_start, sequence_switch, advance]
  rw [ticks_to_done_step t0 _ 2 33 399 (1 * fixed_step + 1) (by simp)
    (by dsimp only; ring) (by norm_num) (by norm_num)
    (by norm_num [fixed_step, TIME_STEP]) (by norm_num [fixed_step, TIME_STEP])]
  simp [sequence_switch, advance]

theorem ticks_to_done_DROP_FOOD (c0 : Controller) (t0 : ℚ) (h0 : 0 ≤ t0) :
    ticks_to_done t0 400 1 (sequence_start SSI_DROP_FOOD c0) = some 127 := by
  rw [ticks_to_done_step t0 _ 1 1 400 (-t0) (by simp [sequence_start])
    (by simp [sequence_start]) (by norm_num) (by norm_num) (by norm_num)
    (by norm_num [fixed_step, TIME_STEP]; linarith)]
  simp [sequence_start, sequence_switch, advance]
  rw [ticks_to_done_step t0 _ 2 95 399 (1 * fixed_step + 3) (by simp)
    (by dsimp only; ring) (by norm_num) (by norm_num)
    (by norm_num [fixed_step, TIME_STEP]) (by norm_num [fixed_step, TIME_STEP])]
  simp [sequence_switch, advance]
  rw [ticks_to_done_step t0 _ 96 127 305 (95 * fixed_step + 1) (by simp)
    (by dsimp only; ring) (by norm_num) (by norm_num)
    (by norm_num [fixed_step, TIME_STEP]) (by norm_num [fixed_step, TIME_STEP])]
  simp [sequence_switch, advance]

theorem ticks_to_done_CLEAN_KITCHEN (c0 : Controller) (t0 : ℚ) (h0 : 0 ≤ t0) :
    ticks_to_done t0 400 1 (sequence_start SSI_CLEAN_KITCHEN c0) = some 378 := by
  rw [ticks_to_done_step t0 _ 1 1 400 (-t0) (by simp [sequence_start])
    (by simp [sequence_start]) (by norm_num) (by norm_num) (by norm_num)
    (by norm_num [fixed_step, TIME_STEP]; linarith)]
  simp [sequence_start, sequence_switch, advance]
  rw [ticks_to_done_step t0 _ 2 189 399 (1 * fixed_step + 6) (by simp)
    (by dsimp only; ring) (by norm_num) (by norm_num)
    (by norm_num [fixed_step, TIME_STEP]) (by norm_num [fixed_step, TIME_STEP])]
  simp [sequence_switch, advance]
  rw [ticks_to_done_step t0 _ 190 252 211 (189 * fixed_step + 2) (by simp)
    (by dsimp only; ring) (by norm_num) (by norm_num)
    (by norm_num [fixed_step, TIME_STEP]) (by norm_num [fixed_step, TIME_STEP])]
  simp [sequence_switch, advance]
  rw [ticks_to_done_step t0 _ 253 378 148 (252 * fixed_step + 4) (by simp)
    (by dsimp only; ring) (by norm_num) (by norm_num)
    (by norm_num [fixed_step, TIME_STEP]) (by norm_num [fixed_step, TIME_STEP])]
  simp [sequence_switch, advance]


/-- C6: for every routine and every `t0 ≥ 0`, after `sequence_start` and the
regular ticks at `t0 + fixed_step`, `t0 + 2 * fixed_step`, ... the engine is
first `SSI_DONE` after the `k`-th tick, where `k * fixed_step` (the time from
start to completion) is at least the sum of the dwells and below that sum plus
`N * fixed_step`; for MOVE_LEFT `k = 95`, the tick at `t0 + 3.040`. -/
theorem total_routine_time (R : Routine) (c0 : Controller) (t0 : ℚ) (h0 : 0 ≤ t0) :
    ∃ k : Nat, ticks_to_done t0 400 1 (sequence_start R.entry c0) = some k ∧
      (spec_dwells R).sum ≤ k * fixed_step ∧
      (k : ℚ) * fixed_step < (spec_dwells R).sum + spec_step_count R * fixed_step ∧
      (R = Routine.MOVE_LEFT → k = 95) := by
  cases R
  · exact ⟨103, ticks_to_done_PICKUP c0 t0 h0,
      by norm_num [spec_dwells, spec_step_count, fixed_step, TIME_STEP],
      by norm_num [spec_dwells, spec_step_count, fixed_step, TIME_STEP], by simp⟩
  · exact ⟨95, ticks_to_done_MOVE_LEFT c0 t0 h0,
      by norm_num [spec_dwells, spec_step_count, fixed_step, TIME_STEP],
      by norm_num [spec_dwells, spec_step_count, fixed_step, TIME_STEP], by simp⟩
  · exact ⟨95, ticks_to_done_FEED c0 t0 h0,
      by norm_num [spec_dwells, spec_step_count, fixed_step, TIME_STEP],
      by norm_num [spec_dwells, spec_step_count, fixed_step, TIME_STEP], by simp⟩
  · exact ⟨33, ticks_to_done_PUSH_FOOD c0 t0 h0,
      by norm_num [spec_dwells, spec_step_count, fixed_step, TIME_STEP],
      by norm_num [spec_dwells, spec_step_count, fixed_step, TIME_STEP], by simp⟩
  · exact ⟨127, ticks_to_done_DROP_FOOD c0 t0 h0,
      by norm_num [spec_dwells, spec_step_count, fixed_step, TIME_STEP],
      by norm_num [spec_dwells, spec_step_count, fixed_step, TIME_STEP], by simp⟩
  · exact ⟨378, ticks_to_done_CLEAN_KITCHEN c0 t0 h0,
      by norm_num [spec_dwells, spec_step_count, fixed_step, TIME_STEP],
      by norm_num [spec_dwells, spec_step_count, fixed_step, TIME_STEP], by simp⟩

/-- Scenario S1 for C6: MOVE_LEFT started at 0 is first `SSI_DONE` after tick
95, at time 3.040. -/
theorem total_routine_time_witness :
    (0 : ℚ) ≤ 0 ∧
    ticks_to_done 0 400 1 (sequence_start Routine.MOVE_LEFT.entry (idle_at 0)) = some 95 ∧
    (0 : ℚ) + 95 * fixed_step = 3040 / 1000 := by
  obtain ⟨k, h1, -, -, h4⟩ := total_routine_time Routine.MOVE_LEFT (idle_at 0) 0 (le_refl _)
  rw [h4 rfl] at h1
  exact ⟨le_refl _, h1, by norm_num [fixed_step, TIME_STEP]⟩

/-! ## Frame and validity properties of the engine -/

/-- One call of `sequence_run` is a no-op, or the engine is running with its
timer expired and the call is the advancing branch. -/
theorem sequence_run_shape (c : Controller) :
    sequence_run c = c ∨
    (c.sequence_state ≠ SSI_DONE ∧ c.sequence_timeout_at_time < c.time ∧
      sequence_run c = advance c.time c) := by
  by_cases hd : c.sequence_state = SSI_DONE
  · exact Or.inl (sequence_run_done c hd)
  by_cases hw : c.time ≤ c.sequence_timeout_at_time
  · exact Or.inl (sequence_run_wait c hw)
  · exact Or.inr ⟨hd, not_le.mp hw, sequence_run_advance c (not_le.mp hw) hd⟩

theorem advance_deadline (t : ℚ) (c : Controller) :
    (advance t c).sequence_timeout_at_time = c.sequence_timeout_at_time ∨
    ((advance t c).sequence_state = c.sequence_state + 1 ∧
      (advance t c).sequence_state ≠ SSI_DONE ∧
      ∃ d, 0 < d ∧ spec_dwell (c.sequence_state + 1) = some d ∧
        (advance t c).sequence_timeout_at_time = t + d) := by
  obtain ⟨t0, n, D, l⟩ := c
  rcases Nat.lt_or_ge n 23 with hn | hn
  · interval_cases n <;> norm_num [advance, sequence_switch, spec_dwell]
  · left
    rw [advance, sequence_switch_invalid _ (by simp only; omega)]

theorem advance_valid (t : ℚ) (c : Controller) (hv : c.sequence_state < SSI_DONE) :
    (advance t c).sequence_state ≤ SSI_DONE := by
  obtain ⟨t0, n, D, l⟩ := c
  simp only [SSI_DONE] at hv
  interval_cases n <;> simp [advance, sequence_switch]

theorem sequence_run_deadline_le (c : Controller) :
    c.sequence_timeout_at_time ≤ (sequence_run c).sequence_timeout_at_time := by
  rcases sequence_run_shape c with h | ⟨-, hlt, h⟩
  · rw [h]
  · rw [h]
    rcases advance_deadline c.time c with h' | ⟨-, -, d, hd, -, h'⟩
    · rw [h']
    · rw [h']; linarith

theorem run_ticks_append (ts1 ts2 : List ℚ) (c : Controller) :
    run_ticks (ts1 ++ ts2) c = run_ticks ts2 (run_ticks ts1 c) := by
  simp [run_ticks, List.foldl_append]

theorem run_ticks_deadline_le (ts : List ℚ) (c : Controller) :
    c.sequence_timeout_at_time ≤ (run_ticks ts c).sequence_timeout_at_time := by
  induction ts generalizing c with
  | nil => exact le_refl _
  | cons t ts ih =>
    have h1 : c.sequence_timeout_at_time ≤ (tick t c).sequence_timeout_at_time :=
      sequence_run_deadline_le { c with time := t }
    exact le_trans h1 (ih (tick t c))

/-- C12: the deadline after `sequence_run` is never below the deadline before
(and strictly above it whenever it changed); hence along any run of ticks the
deadline is non-decreasing, and `sequence_abort` leaves it unchanged. -/
theorem deadline_monotone (c : Controller) (ts1 ts2 : List ℚ) :
    c.sequence_timeout_at_time ≤ (sequence_run c).sequence_timeout_at_time ∧
    ((sequence_run c).sequence_timeout_at_time ≠ c.sequence_timeout_at_time →
      c.sequence_timeout_at_time < (sequence_run c).sequence_timeout_at_time) ∧
    (run_ticks ts1 c).sequence_timeout_at_time ≤
      (run_ticks (ts1 ++ ts2) c).sequence_timeout_at_time ∧
    (sequence_abort c).sequence_timeout_at_time = c.sequence_timeout_at_time := by
  refine ⟨sequence_run_deadline_le c,
    fun hne => lt_of_le_of_ne (sequence_run_deadline_le c) (Ne.symm hne), ?_, rfl⟩
  rw [run_ticks_append]
  exact run_ticks_deadline_le ts2 _

/-- C18: from a state on one of the 24 enumerators, the state after
`sequence_run` (and after any run of ticks) is again on an enumerator; from
`SSI_DONE` nothing is done, and whenever the increment is applied the new index
is at most `SSI_DONE`, so the switch dispatches on a listed case. -/
theorem step_index_stays_valid (c : Controller) (hv : c.sequence_state ≤ SSI_DONE) :
    (sequence_run c).sequence_state ≤ SSI_DONE ∧
    (c.sequence_state = SSI_DONE → sequence_run c = c) ∧
    (sequence_run c ≠ c →
      c.sequence_state + 1 ≤ SSI_DONE ∧ sequence_run c = advance c.time c) ∧
    ∀ ts : List ℚ, (run_ticks ts c).sequence_state ≤ SSI_DONE := by
  have key : ∀ c : Controller, c.sequence_state ≤ SSI_DONE →
      (sequence_run c).sequence_state ≤ SSI_DONE := by
    intro c hv
    rcases sequence_run_shape c with h | ⟨hd, -, h⟩
    · rw [h]; exact hv
    · rw [h]; exact advance_valid _ c (lt_of_le_of_ne hv hd)
  refine ⟨key c hv, sequence_run_done c, fun hne => ?_, fun ts => ?_⟩
  · rcases sequence_run_shape c with h | ⟨hd, -, h⟩
    · exact absurd h hne
    · exact ⟨Nat.succ_le_of_lt (lt_of_le_of_ne hv hd), h⟩
  · induction ts generalizing c with
    | nil => exact hv
    | cons t ts ih => exact ih (tick t c) (key { c with time := t } hv)

/-- From the last terminal marker the increment lands on `SSI_DONE`, never
beyond. -/
theorem step_index_stays_valid_witness :
    (⟨1, SSI_CLEAN_KITCHEN_DONE, 0, []⟩ : Controller).sequence_state ≤ SSI_DONE ∧
    (sequence_run ⟨1, SSI_CLEAN_KITCHEN_DONE, 0, []⟩).sequence_state ≤ SSI_DONE ∧
    (run_ticks [2, 3, 4] ⟨1, SSI_CLEAN_KITCHEN_DONE, 0, []⟩).sequence_state ≤ SSI_DONE :=
  ⟨by simp, (step_index_stays_valid ⟨1, SSI_CLEAN_KITCHEN_DONE, 0, []⟩ (by simp)).1,
    (step_index_stays_valid ⟨1, SSI_CLEAN_KITCHEN_DONE, 0, []⟩ (by simp)).2.2.2 [2, 3, 4]⟩

theorem tick_time_irrelevant (t x : ℚ) (c : Controller) :
    tick t { c with time := x } = tick t c := rfl

theorem run_ticks_waiting (ts : List ℚ) (c : Controller)
    (hts : ∀ x ∈ ts, x ≤ c.sequence_timeout_at_time) :
    ∃ x, run_ticks ts c = { c with time := x } := by
  induction ts generalizing c with
  | nil => exact ⟨c.time, rfl⟩
  | cons t ts ih =>
    have ht : tick t c = { c with time := t } :=
      tick_wait t c (hts t (List.mem_cons_self _ _))
    obtain ⟨x, hx⟩ := ih { c with time := t }
      (fun y hy => hts y (List.mem_cons_of_mem _ hy))
    exact ⟨x, by simp only [run_ticks, List.foldl_cons] at hx ⊢; rw [ht, hx]⟩

/-- C11: `sequence_start` on the entry marker of a routine emits nothing; ticks
at times `≤ 0` are no-ops (state, deadline 0 and call log are kept); the first
tick at a time `t > 0` enters step 1: it emits exactly the actions of step 1,
sets the deadline to `t + dwell_1` and leaves the engine running. -/
theorem first_tick_enters_first_step (R : Routine) (c0 : Controller) (ts : List ℚ) (t : ℚ)
    (hts : ∀ x ∈ ts, x ≤ 0) (ht : 0 < t) :
    emitted c0 (sequence_start R.entry c0) = [] ∧
    (emitted c0 (run_ticks ts (sequence_start R.entry c0)) = [] ∧
      (run_ticks ts (sequence_start R.entry c0)).sequence_state = R.entry ∧
      (run_ticks ts (sequence_start R.entry c0)).sequence_timeout_at_time = 0) ∧
    ∃ acts d, (spec_steps R).head? = some acts ∧ (spec_dwells R).head? = some d ∧
      emitted c0 (tick t (run_ticks ts (sequence_start R.entry c0))) = acts ∧
      (tick t (run_ticks ts (sequence_start R.entry c0))).sequence_timeout_at_time = t + d ∧
      (tick t (run_ticks ts (sequence_start R.entry c0))).sequence_state = R.entry + 1 ∧
      is_sequence_running (tick t (run_ticks ts (sequence_start R.entry c0))) = true := by
  obtain ⟨x, hx⟩ := run_ticks_waiting ts (sequence_start R.entry c0) hts
  rw [hx, tick_time_irrelevant]
  refine ⟨by simp [emitted, sequence_start], by simp [emitted, sequence_start], ?_⟩
  rw [tick_advance t _ ht (by cases R <;> simp [sequence_start, Routine.entry])]
  cases R <;>
    simp [emitted, sequence_start, sequence_switch, spec_steps, spec_dwells, Routine.entry,
      is_sequence_running]

/-- MOVE_LEFT started at 0: ticks at -1 and 0 do nothing, the tick at 0.032
enters step 1. -/
theorem first_tick_enters_first_step_witness :
    (∀ x ∈ [(-1 : ℚ), 0], x ≤ 0) ∧ (0 : ℚ) < 32 / 1000 ∧
    (run_ticks [-1, 0] (sequence_start Routine.MOVE_LEFT.entry (idle_at 0))).sequence_state =
      SSI_MOVE_LEFT ∧
    ∃ acts d, (spec_steps Routine.MOVE_LEFT).head? = some acts ∧
      (spec_dwells Routine.MOVE_LEFT).head? = some d ∧
      emitted (idle_at 0) (tick (32 / 1000)
        (run_ticks [-1, 0] (sequence_start Routine.MOVE_LEFT.entry (idle_at 0)))) = acts ∧
      (tick (32 / 1000) (run_ticks [-1, 0]
        (sequence_start Routine.MOVE_LEFT.entry (idle_at 0)))).sequence_timeout_at_time =
        32 / 1000 + d := by
  have hts : ∀ x ∈ [(-1 : ℚ), 0], x ≤ 0 := by
    intro x hx
    simp at hx
    rcases hx with h | h <;> norm_num [h]
  obtain ⟨-, ⟨-, h2, -⟩, acts, d, ha, hd, h3, h4, -, -⟩ :=
    first_tick_enters_first_step Routine.MOVE_LEFT (idle_at 0) [-1, 0] (32 / 1000) hts
      (by norm_num)
  exact ⟨hts, by norm_num, h2, acts, d, ha, hd, h3, h4⟩

/-- C19: `sequence_start` stores any id unchanged and the next tick at `t > 0`
dispatches on `id + 1`: started on the terminal marker `SSI_PICKUP_DONE` it
emits MOVE_LEFT's speech and strafe-left with deadline `t + 3`; started on
`SSI_PICKUP_1` it skips PICKUP step 1 and emits only the gripper grip. -/
theorem start_id_not_validated (id : Nat) (c0 : Controller) (t : ℚ) (ht : 0 < t) :
    (sequence_start id c0).sequence_state = id ∧
    (id ≠ SSI_DONE → tick t (sequence_start id c0) =
      sequence_switch { sequence_start id c0 with time := t, sequence_state := id + 1 }) ∧
    (emitted c0 (tick t (sequence_start SSI_PICKUP_DONE c0)) =
        [Call.speak "Here comes the nomm nomm train!", Call.base_strafe_left] ∧
      (tick t (sequence_start SSI_PICKUP_DONE c0)).sequence_timeout_at_time = t + 3 ∧
      (tick t (sequence_start SSI_PICKUP_DONE c0)).sequence_state = SSI_MOVE_LEFT) ∧
    (emitted c0 (tick t (sequence_start SSI_PICKUP_1 c0)) = [Call.gripper_grip] ∧
      (tick t (sequence_start SSI_PICKUP_1 c0)).sequence_timeout_at_time = t + 1 ∧
      (tick t (sequence_start SSI_PICKUP_1 c0)).sequence_state = SSI_PICKUP_2) := by
  refine ⟨rfl, fun hid => tick_advance t _ ht hid, ?_, ?_⟩
  · rw [tick_advance t _ ht (by simp [sequence_start])]
    simp [emitted, sequence_start, sequence_switch]
  · rw [tick_advance t _ ht (by simp [sequence_start])]
    simp [emitted, sequence_start, sequence_switch]

/-- The two mis-starts of C19 at tick time 1. -/
theorem start_id_not_validated_witness :
    (0 : ℚ) < 1 ∧
    emitted (idle_at 0) (tick 1 (sequence_start SSI_PICKUP_DONE (idle_at 0))) =
      [Call.speak "Here comes the nomm nomm train!", Call.base_strafe_left] ∧
    emitted (idle_at 0) (tick 1 (sequence_start SSI_PICKUP_1 (idle_at 0))) =
      [Call.gripper_grip] :=
  ⟨by norm_num, (start_id_not_validated 0 (idle_at 0) 1 (by norm_num)).2.2.1.1,
    (start_id_not_validated 0 (idle_at 0) 1 (by norm_num)).2.2.2.1⟩

theorem advance_running (t : ℚ) (c : Controller) (hv : c.sequence_state < SSI_DONE)
    (hr : (advance t c).sequence_state ≠ SSI_DONE) :
    (advance t c).sequence_state = c.sequence_state + 1 ∧
    ∃ d, spec_dwell (c.sequence_state + 1) = some d ∧
      (advance t c).sequence_timeout_at_time = t + d := by
  obtain ⟨t0, n, D, l⟩ := c
  simp only [SSI_DONE] at hv
  interval_cases n <;> simp [advance, sequence_switch] at hr <;>
    simp [advance, sequence_switch, spec_dwell]

theorem entry_invariant_tick (id : Nat) (c : Controller) (acc : Option ℚ) (t : ℚ)
    (h : entry_invariant id c acc) :
    entry_invariant id (tick t c)
      (if (tick t c).sequence_state ≠ c.sequence_state then some t else acc) := by
  obtain ⟨hv, hrun⟩ := h
  by_cases hd : c.sequence_state = SSI_DONE
  · rw [tick_done t c hd]
    simp only [ne_eq, not_true_eq_false, if_false]
    exact ⟨hv, fun h => absurd hd h⟩
  by_cases hw : t ≤ c.sequence_timeout_at_time
  · rw [tick_wait t c hw]
    simp only [ne_eq, not_true_eq_false, if_false]
    exact ⟨hv, hrun⟩
  have hne := (tick_leaves_iff t c hd).mpr (not_le.mp hw)
  rw [if_pos hne]
  have hadv : tick t c = advance t c := tick_advance t c (not_le.mp hw) hd
  rw [hadv]
  refine ⟨advance_valid t c (lt_of_le_of_ne hv hd), fun hrun' => Or.inr ?_⟩
  obtain ⟨hs, d, hdw, h'⟩ := advance_running t c (lt_of_le_of_ne hv hd) hrun'
  exact ⟨t, d, rfl, by rw [hs]; exact hdw, h'⟩

theorem entry_invariant_run (id : Nat) (ts : List ℚ) (c : Controller) (acc : Option ℚ)
    (h : entry_invariant id c acc) :
    entry_invariant id (run_ticks ts c) (last_entry_time ts c acc) := by
  induction ts generalizing c acc with
  | nil => exact h
  | cons t ts ih => exact ih _ _ (entry_invariant_tick id c acc t h)

/-- C13, as stated, fails: after `sequence_start` and a tick at time 0 the
engine is running with deadline 0, yet no step was entered, so the deadline is
not the time of a step entry plus a dwell; indeed it is not `e + d` for any
time `e ≥ 0` and the dwell `d` the table gives for the current index. -/
theorem running_without_step_entry :
    is_sequence_running (run_ticks [0] (sequence_start SSI_PICKUP (idle_at 0))) = true ∧
    (run_ticks [0] (sequence_start SSI_PICKUP (idle_at 0))).sequence_timeout_at_time = 0 ∧
    (¬ ∃ e d, last_entry_time [0] (sequence_start SSI_PICKUP (idle_at 0)) none = some e ∧
      spec_dwell (run_ticks [0] (sequence_start SSI_PICKUP (idle_at 0))).sequence_state =
        some d ∧
      (run_ticks [0] (sequence_start SSI_PICKUP (idle_at 0))).sequence_timeout_at_time =
        e + d) ∧
    ∀ e d : ℚ, 0 ≤ e →
      spec_dwell (run_ticks [0] (sequence_start SSI_PICKUP (idle_at 0))).sequence_state =
        some d →
      (run_ticks [0] (sequence_start SSI_PICKUP (idle_at 0))).sequence_timeout_at_time ≠
        e + d := by
  have hrun : run_ticks [0] (sequence_start SSI_PICKUP (idle_at 0)) = ⟨0, 0, 0, []⟩ := by
    norm_num [run_ticks, tick, sequence_run, sequence_start, is_sequence_timer_expired,
      idle_at]
  refine ⟨?_, ?_, ?_, ?_⟩
  · rw [hrun]; simp [is_sequence_running]
  · rw [hrun]
  · rintro ⟨e, d, he, -, -⟩
    norm_num [last_entry_time, tick, sequence_run, sequence_start, is_sequence_timer_expired,
      idle_at] at he
    exact Option.noConfusion he
  · intro e d he hd
    rw [hrun] at hd ⊢
    simp [spec_dwell] at hd
    subst hd
    intro h
    simp only at h
    linarith

/-- C13 (amended): a `sequence_run` that leaves `sequence_state` unchanged
changes nothing (no call, same deadline); a `sequence_run` that changes the
deadline has moved the state to the next, non-`SSI_DONE` index and set the
deadline to `now + dwell`; `sequence_start` itself writes the deadline 0; so in
a run after `sequence_start`, while the engine is running, the deadline is 0
until the first step entry and from then on the time of the last step entry
plus the dwell of that step. -/
theorem writes_only_on_step_entry (c : Controller) (R : Routine) (c0 : Controller)
    (ts : List ℚ) :
    ((sequence_run c).sequence_state = c.sequence_state → sequence_run c = c) ∧
    ((sequence_run c).sequence_timeout_at_time ≠ c.sequence_timeout_at_time →
      (sequence_run c).sequence_state = c.sequence_state + 1 ∧
      (sequence_run c).sequence_state ≠ SSI_DONE ∧
      ∃ d, spec_dwell (c.sequence_state + 1) = some d ∧
        (sequence_run c).sequence_timeout_at_time = c.time + d) ∧
    (sequence_start R.entry c0).sequence_timeout_at_time = 0 ∧
    (is_sequence_running (run_ticks ts (sequence_start R.entry c0)) = true →
      (last_entry_time ts (sequence_start R.entry c0) none = none ∧
        (run_ticks ts (sequence_start R.entry c0)).sequence_timeout_at_time = 0 ∧
        (run_ticks ts (sequence_start R.entry c0)).sequence_state = R.entry) ∨
      (∃ e d, last_entry_time ts (sequence_start R.entry c0) none = some e ∧
        spec_dwell (run_ticks ts (sequence_start R.entry c0)).sequence_state = some d ∧
        (run_ticks ts (sequence_start R.entry c0)).sequence_timeout_at_time = e + d)) := by
  refine ⟨fun hs => ?_, fun hne => ?_, rfl, fun hrun => ?_⟩
  · rcases sequence_run_shape c with h | ⟨hd, hlt, -⟩
    · exact h
    · exact absurd hs ((sequence_run_leaves_iff c hd).mpr hlt)
  · rcases sequence_run_shape c with h | ⟨-, -, h⟩
    · rw [h] at hne; exact absurd rfl hne
    · rw [h] at hne ⊢
      rcases advance_deadline c.time c with h' | ⟨hs, hnd, d, -, hdw, h'⟩
      · exact absurd h' hne
      · exact ⟨hs, hnd, d, hdw, h'⟩
  · have hinv := entry_invariant_run R.entry ts (sequence_start R.entry c0) none
      ⟨by cases R <;> simp [sequence_start, Routine.entry],
        fun _ => Or.inl ⟨rfl, rfl, rfl⟩⟩
    exact hinv.2 (by simpa [is_sequence_running] using hrun)

/-- MOVE_LEFT after the ticks at 0.032 and 0.064: running, last entry at 0.032,
deadline 0.032 + 3. -/
theorem writes_only_on_step_entry_witness :
    is_sequence_running (run_ticks [32 / 1000, 64 / 1000]
      (sequence_start Routine.MOVE_LEFT.entry (idle_at 0))) = true ∧
    ∃ e d, last_entry_time [32 / 1000, 64 / 1000]
        (sequence_start Routine.MOVE_LEFT.entry (idle_at 0)) none = some e ∧
      spec_dwell (run_ticks [32 / 1000, 64 / 1000]
        (sequence_start Routine.MOVE_LEFT.entry (idle_at 0))).sequence_state = some d ∧
      (run_ticks [32 / 1000, 64 / 1000]
        (sequence_start Routine.MOVE_LEFT.entry (idle_at 0))).sequence_timeout_at_time =
        e + d := by
  have hrun : is_sequence_running (run_ticks [32 / 1000, 64 / 1000]
      (sequence_start Routine.MOVE_LEFT.entry (idle_at 0))) = true := by
    norm_num [run_ticks, tick, sequence_run, sequence_start, is_sequence_timer_expired,
      is_sequence_complete, is_sequence_running, sequence_switch, Routine.entry, idle_at]
  rcases (writes_only_on_step_entry (idle_at 0) Routine.MOVE_LEFT (idle_at 0)
      [32 / 1000, 64 / 1000]).2.2.2 hrun with ⟨hnone, -, -⟩ | h
  · exfalso
    norm_num [last_entry_time, tick, sequence_run, sequence_start, is_sequence_timer_expired,
      is_sequence_complete, is_sequence_running, sequence_switch, Routine.entry, idle_at]
      at hnone
    exact Option.noConfusion hnone
  · exact ⟨hrun, h⟩

/-! ## The speech payload, startup, main loop and shutdown -/

theorem c_str_prefix_length :
    (c_str "<prosody rate=\"0.75\"><prosody pitch=\"-10st\">").length = 44 := by decide

theorem c_str_suffix_length : (c_str "</prosody></prosody>").length = 20 := by decide

/-- C14: for every text of at most 935 bytes `speak` hands the speaker exactly
the prosody prefix, the text and the prosody suffix, at volume 1.0; the buffer
cuts only longer texts (to 999 bytes); every text the routines speak is within
the 935 bytes. -/
theorem speak_payload (text : List UInt8) :
    (text.length ≤ 935 →
      speak_request text =
        { text := c_str "<prosody rate=\"0.75\"><prosody pitch=\"-10st\">" ++ text ++
            c_str "</prosody></prosody>",
          volume := 1 }) ∧
    (935 < text.length →
      (speak_request text).text.length = 999 ∧ (speak_request text).volume = 1) ∧
    (∀ u ∈ routine_utterances, (c_str u).length ≤ 935) := by
  refine ⟨fun h => ?_, fun h => ?_, by decide⟩
  · simp only [speak_request, snprintf]
    rw [List.take_of_length_le]
    simp only [List.length_append, c_str_prefix_length, c_str_suffix_length]
    omega
  · simp only [speak_request, snprintf, List.length_take, List.length_append,
      c_str_prefix_length, c_str_suffix_length]
    exact ⟨by omega, trivial⟩

/-- The utterance of DROP_FOOD step 2 goes out wrapped and uncut. -/
theorem speak_payload_witness :
    (c_str "Jerk.").length ≤ 935 ∧
    speak_request (c_str "Jerk.") =
      { text := c_str "<prosody rate=\"0.75\"><prosody pitch=\"-10st\">Jerk.</prosody></prosody>",
        volume := 1 } := by
  have h := (speak_payload (c_str "Jerk.")).1 (by decide)
  refine ⟨by decide, ?_⟩
  rw [h]
  decide

theorem main_iteration_log (key step_result : Int) (p : Process) :
    (main_iteration key step_result p).log =
      p.log ++ spec_iteration_ops key ++
        (if step_result = -1 then [Op.wb_robot_cleanup, Op.exit 0] else []) ∧
    (main_iteration key step_result p).exit_status =
      (if step_result = -1 then some 0 else p.exit_status) := by
  by_cases hk : key > 0 <;> by_cases hr : step_result = -1 <;>
    simp [main_iteration, webots_step, Process.call, spec_iteration_ops, hk, hr, TIME_STEP,
      EXIT_SUCCESS]

theorem main_loop_running (answers : List (Int × Int)) (p : Process)
    (hp : p.exit_status = none) (hrun : ∀ a ∈ answers, a.2 ≠ -1) :
    (main_loop answers p).log = p.log ++ answers.flatMap (fun a => spec_iteration_ops a.1) ∧
    (main_loop answers p).exit_status = none := by
  induction answers generalizing p with
  | nil => simp [main_loop, hp]
  | cons a rest ih =>
    obtain ⟨key, r⟩ := a
    have hr : r ≠ -1 := hrun (key, r) (List.mem_cons_self _ _)
    obtain ⟨hlog, hex⟩ := main_iteration_log key r p
    rw [if_neg hr] at hlog hex
    rw [hp] at hex
    obtain ⟨h1, h2⟩ := ih (main_iteration key r p) hex
      (fun a ha => hrun a (List.mem_cons_of_mem _ ha))
    simp only [main_loop, hex]
    exact ⟨by rw [h1, hlog]; simp, h2⟩

theorem main_loop_append (xs ys : List (Int × Int)) (p : Process)
    (hp : p.exit_status = none) (hrun : ∀ a ∈ xs, a.2 ≠ -1) :
    main_loop (xs ++ ys) p = main_loop ys (main_loop xs p) := by
  induction xs generalizing p with
  | nil => rfl
  | cons a rest ih =>
    obtain ⟨key, r⟩ := a
    have hr : r ≠ -1 := hrun (key, r) (List.mem_cons_self _ _)
    have hex := (main_iteration_log key r p).2
    rw [if_neg hr, hp] at hex
    simp only [List.cons_append, main_loop, hex]
    exact ih _ hex (fun a ha => hrun a (List.mem_cons_of_mem _ ha))

theorem count_step_one_iteration (key : Int) :
    (spec_iteration_ops key).count (Op.wb_robot_step 32) = 1 ∧
    (spec_iteration_ops key).count Op.wb_robot_cleanup = 0 := by
  by_cases hk : key > 0 <;> simp [spec_iteration_ops, hk, List.count_cons]

theorem count_step_iterations (answers : List (Int × Int)) :
    (answers.flatMap (fun a => spec_iteration_ops a.1)).count (Op.wb_robot_step 32) =
      answers.length ∧
    (answers.flatMap (fun a => spec_iteration_ops a.1)).count Op.wb_robot_cleanup = 0 := by
  induction answers with
  | nil => simp
  | cons a rest ih =>
    simp only [List.flatMap_cons, List.count_append, ih.1, ih.2,
      (count_step_one_iteration a.1).1, (count_step_one_iteration a.1).2, List.length_cons]
    exact ⟨by omega, trivial⟩

/-- C17: while the host step does not return -1, every pass of the main loop
makes, in this order, the keyboard poll, the dispatch of `ANY_KEY` exactly when
the key code is positive, the dispatch of the tick event `DO`, `sequence_run`
and one host step; when the host step returns -1 in a pass, that pass is
followed by one `wb_robot_cleanup` and `exit(0)` and by nothing else, whatever
the host would answer later; the host step is called once per pass and not at
all during startup. -/
theorem main_loop_order (answers : List (Int × Int)) (key : Int) (rest : List (Int × Int))
    (p : Process) (hp : p.exit_status = none) (hrun : ∀ a ∈ answers, a.2 ≠ -1) :
    (ops_since p (main_loop answers p) =
        answers.flatMap (fun a => spec_iteration_ops a.1) ∧
      (main_loop answers p).exit_status = none ∧
      (ops_since p (main_loop answers p)).count (Op.wb_robot_step 32) = answers.length) ∧
    (ops_since p (main_loop (answers ++ (key, -1) :: rest) p) =
        answers.flatMap (fun a => spec_iteration_ops a.1) ++ spec_iteration_ops key ++
          [Op.wb_robot_cleanup, Op.exit 0] ∧
      (main_loop (answers ++ (key, -1) :: rest) p).exit_status = some 0 ∧
      (ops_since p (main_loop (answers ++ (key, -1) :: rest) p)).count Op.wb_robot_cleanup
        = 1 ∧
      (ops_since p (main_loop (answers ++ (key, -1) :: rest) p)).count (Op.wb_robot_step 32)
        = answers.length + 1) ∧
    ∀ devices : String → Nat, Op.wb_robot_step 32 ∉ (main_startup devices).log := by
  obtain ⟨h1, h2⟩ := main_loop_running answers p hp hrun
  have hops : ops_since p (main_loop answers p) =
      answers.flatMap (fun a => spec_iteration_ops a.1) := by
    rw [ops_since, h1]; simp
  have hterm : main_loop ((key, -1) :: rest) (main_loop answers p) =
      main_iteration key (-1) (main_loop answers p) := by
    have hex := (main_iteration_log key (-1) (main_loop answers p)).2
    rw [if_pos rfl] at hex
    simp only [main_loop, hex]
  have hlog := (main_iteration_log key (-1) (main_loop answers p)).1
  have hex := (main_iteration_log key (-1) (main_loop answers p)).2
  rw [if_pos rfl] at hlog hex
  have hops2 : ops_since p (main_loop (answers ++ (key, -1) :: rest) p) =
      answers.flatMap (fun a => spec_iteration_ops a.1) ++ spec_iteration_ops key ++
        [Op.wb_robot_cleanup, Op.exit 0] := by
    rw [ops_since, main_loop_append answers _ p hp hrun, hterm, hlog, h1]; simp
  have hc := count_step_iterations answers
  have hk := count_step_iterations [(key, (0 : Int))]
  simp only [List.flatMap_cons, List.flatMap_nil, List.append_nil, List.length_singleton]
    at hk
  refine ⟨⟨hops, h2, by rw [hops]; exact hc.1⟩, ⟨hops2, ?_, ?_, ?_⟩, fun devices => ?_⟩
  · rw [main_loop_append answers _ p hp hrun, hterm]; exact hex
  · rw [hops2]; simp [List.count_append, hc.2, hk.2, List.count_cons]
  · rw [hops2]; simp [List.count_append, hc.1, hk.1, List.count_cons]
  · simp [main_startup, arm_init, speak_init, Process.call, process_start]

/-- Scenario S5 in small: two passes, then TERMINATE in the third pass. -/
theorem main_loop_order_witness :
    (main_startup host_without_arm3).exit_status = none ∧
    (∀ a ∈ [((-1 : Int), (0 : Int)), (65, 0)], a.2 ≠ -1) ∧
    ops_since (main_startup host_without_arm3)
        (main_loop ([(-1, 0), (65, 0)] ++ (-1, -1) :: [(66, 0)])
          (main_startup host_without_arm3)) =
      [Op.wb_keyboard_get_key, Op.BotSm_dispatch_event BotSm_EventId.DO, Op.sequence_run,
        Op.wb_robot_step 32,
        Op.wb_keyboard_get_key, Op.BotSm_dispatch_event BotSm_EventId.ANY_KEY,
        Op.BotSm_dispatch_event BotSm_EventId.DO, Op.sequence_run, Op.wb_robot_step 32,
        Op.wb_keyboard_get_key, Op.BotSm_dispatch_event BotSm_EventId.DO, Op.sequence_run,
        Op.wb_robot_step 32, Op.wb_robot_cleanup, Op.exit 0] := by
  have hrun : ∀ a ∈ [((-1 : Int), (0 : Int)), (65, 0)], a.2 ≠ -1 := by decide
  have h := (main_loop_order [(-1, 0), (65, 0)] (-1) [(66, 0)]
    (main_startup host_without_arm3) rfl hrun).2.1.1
  refine ⟨rfl, hrun, ?_⟩
  rw [h]
  simp [spec_iteration_ops]

theorem main_loop_log_extends (answers : List (Int × Int)) (p : Process) :
    ∃ ys, (main_loop answers p).log = p.log ++ ys := by
  induction answers generalizing p with
  | nil => exact ⟨[], by simp [main_loop]⟩
  | cons a rest ih =>
    obtain ⟨key, r⟩ := a
    have hlog := (main_iteration_log key r p).1
    simp only [main_loop]
    split
    · exact ⟨_, by rw [hlog, List.append_assoc]⟩
    · obtain ⟨ys, hys⟩ := ih (main_iteration key r p)
      exact ⟨_, by rw [hys, hlog, List.append_assoc, List.append_assoc]⟩

/-- C15, as stated, fails: when the host step returns -1 after startup, the
calls made are the host step, `wb_robot_cleanup` and `exit(0)`; the base reset
of `safe_machine` is not among them. -/
theorem terminate_skips_safe_machine :
    ops_since (main_startup host_without_arm3)
        (webots_step (-1) (main_startup host_without_arm3)) =
      [Op.wb_robot_step 32, Op.wb_robot_cleanup, Op.exit 0] ∧
    Op.base_reset ∉ ops_since (main_startup host_without_arm3)
        (webots_step (-1) (main_startup host_without_arm3)) := by
  have h : ops_since (main_startup host_without_arm3)
      (webots_step (-1) (main_startup host_without_arm3)) =
      [Op.wb_robot_step 32, Op.wb_robot_cleanup, Op.exit 0] := by
    simp [ops_since, webots_step, Process.call, TIME_STEP, EXIT_SUCCESS]
  rw [h]
  exact ⟨rfl, by simp⟩

/-- C15 (amended): in any process state, when the host step returns -1,
`webots_step` calls `wb_robot_cleanup` and exits with status 0 without calling
`safe_machine`: neither a base reset nor an arm velocity command is issued.
`safe_machine`, if it were called, would issue the base reset and a zero
velocity on the five arm joints. -/
theorem terminate_cleans_up_and_exits (p : Process) :
    ops_since p (webots_step (-1) p) =
      [Op.wb_robot_step 32, Op.wb_robot_cleanup, Op.exit 0] ∧
    (webots_step (-1) p).exit_status = some 0 ∧
    Op.base_reset ∉ ops_since p (webots_step (-1) p) ∧
    (∀ tag v, Op.wb_motor_set_velocity tag v ∉ ops_since p (webots_step (-1) p)) ∧
    ops_since p (safe_machine p) =
      [Op.base_reset,
        Op.wb_motor_set_velocity (p.arm_elements Arm.ARM1) 0,
        Op.wb_motor_set_velocity (p.arm_elements Arm.ARM2) 0,
        Op.wb_motor_set_velocity (p.arm_elements Arm.ARM3) 0,
        Op.wb_motor_set_velocity (p.arm_elements Arm.ARM4) 0,
        Op.wb_motor_set_velocity (p.arm_elements Arm.ARM5) 0] := by
  have h : ops_since p (webots_step (-1) p) =
      [Op.wb_robot_step 32, Op.wb_robot_cleanup, Op.exit 0] := by
    simp [ops_since, webots_step, Process.call, TIME_STEP, EXIT_SUCCESS]
  rw [h]
  refine ⟨rfl, by simp [webots_step, Process.call, EXIT_SUCCESS], by simp, by simp, ?_⟩
  simp [ops_since, safe_machine, Process.call]

/-- C16, as stated, fails: on a host where `arm3` resolves to the null tag,
startup does not exit, it issues the velocity command on `arm2`, and the main
loop is entered. -/
theorem startup_ignores_null_device :
    host_without_arm3 "arm3" = 0 ∧
    (main_startup host_without_arm3).exit_status = none ∧
    Op.wb_motor_set_velocity 7 (5 / 10) ∈ (main_startup host_without_arm3).log ∧
    Op.wb_keyboard_get_key ∈ (main host_without_arm3 [(-1, 0)]).log := by
  refine ⟨by decide, rfl, ?_, ?_⟩
  · simp [main_startup, arm_init, speak_init, Process.call, process_start, host_without_arm3]
  · simp [main, main_loop, main_iteration, webots_step, main_startup, arm_init, speak_init,
      Process.call, process_start]

/-- C16 (amended): whatever tags `wb_robot_get_device` returns, the null tag
included, startup stores them unchecked, never exits, issues
`wb_motor_set_velocity(arm2, 0.5)` and `wb_speaker_set_language`, and the main
loop is entered: the first call after startup is the keyboard poll. -/
theorem startup_never_checks_devices (devices : String → Nat) (key step_result : Int)
    (rest : List (Int × Int)) :
    (main_startup devices).exit_status = none ∧
    (main_startup devices).log =
      [Op.wb_robot_init, Op.wb_robot_get_device "speaker",
        Op.wb_speaker_set_language (devices "speaker") "en-US", Op.base_init,
        Op.wb_robot_get_device "arm1", Op.wb_robot_get_device "arm2",
        Op.wb_robot_get_device "arm3", Op.wb_robot_get_device "arm4",
        Op.wb_robot_get_device "arm5",
        Op.wb_motor_set_velocity (devices "arm2") (5 / 10), Op.gripper_init, Op.BotSm_ctor,
        Op.BotSm_start, Op.wb_keyboard_enable 32] ∧
    (main_startup devices).arm_elements Arm.ARM3 = devices "arm3" ∧
    (ops_since (main_startup devices) (main devices ((key, step_result) :: rest))).take 1 =
      [Op.wb_keyboard_get_key] := by
  refine ⟨rfl, ?_, rfl, ?_⟩
  · simp [main_startup, arm_init, speak_init, Process.call, process_start, TIME_STEP]
  · have hlog := (main_iteration_log key step_result (main_startup devices)).1
    have hex := (main_iteration_log key step_result (main_startup devices)).2
    by_cases hr : step_result = -1
    · rw [if_pos hr] at hlog hex
      simp [main, main_loop, hex, ops_since, hlog, spec_iteration_ops]
    · rw [if_neg hr] at hlog hex
      have hex' : (main_iteration key step_result (main_startup devices)).exit_status = none :=
        hex
      obtain ⟨ys, hys⟩ : ∃ ys, (main_loop rest
          (main_iteration key step_result (main_startup devices))).log =
          (main_iteration key step_result (main_startup devices)).log ++ ys :=
        main_loop_log_extends rest _
      simp [main, main_loop, hex', ops_since, hys, hlog, spec_iteration_ops]

end YouBot
